import Mathlib

set_option maxRecDepth 4000

/-!
Shallow embedding of the CHIP-8 emulator core found in
`crates/libs/chip8/src/core` (chip8.rs, emulator.rs, instruction.rs, cpu.rs).

Machine integers are modelled as `Nat` with explicit wrapping (`% 256` for
`u8`, `% 65536` for `u16`) exactly where the Rust code wraps.  Fallible Rust
code (`Result<_, anyhow::Error>`) is modelled with `Except EmuErr`; a Rust
panic reachable from input-driven data (an unchecked slice index) is modelled
by the distinguished error `EmuErr.crash`, kept separate from the
`anyhow!`-style error returns of the emulator accessors.
-/

/-- Error values produced by the emulator core.  Each constructor corresponds
to one `anyhow!` message in the source, except `crash`, which stands for a
Rust runtime abort caused by an unchecked slice index (no error value is
returned there in the source; execution aborts). -/
inductive EmuErr where
  /-- emulator.rs `set_to_ram`: "Index out of bounds for RAM!" -/
  | ramIndexFault
  /-- emulator.rs `get_v` / `set_v`: "Index out of bounds for V register!" -/
  | vIndexFault
  /-- emulator.rs `stack_pop`: "Stack underflow: No more elements to pop!" -/
  | stackUnderflow
  /-- emulator.rs `stack_push`: "Stack overflow: No more space to push new element!" -/
  | stackOverflow
  /-- emulator.rs `load_rom_file` / `load_hex_digits` size checks. -/
  | romTooLarge
  /-- cpu.rs `exec_instruction`: "Unsupported instruction". -/
  | unsupported
  /-- cpu.rs `CpuController::new`: "Address out of bounds for instruction read!" -/
  | fetchFault
  /-- a Rust panic from an unchecked slice index, e.g. `ram[addr as usize]`. -/
  | crash
deriving DecidableEq, Repr

/-- The architectural state, mirroring `struct CHIP8` in chip8.rs.
`ram` holds 4096 bytes, `stack` 16 return addresses, `v_reg` 16 registers,
`display` 64*32 pixels.  The `keys` field is the 16-entry keypad array that
the methods of emulator.rs address as `self.chip8.keys`. -/
structure CHIP8 where
  ram : List Nat
  stack : List Nat
  v_reg : List Nat
  i_reg : Nat
  sp : Nat
  pc : Nat
  dt : Nat
  st : Nat
  display : List Bool
  keys : List Bool
deriving DecidableEq, Repr

/-- chip8.rs `RAM_SIZE`. -/
def RAM_SIZE : Nat := 4096

/-- chip8.rs `STACK_SIZE`. -/
def STACK_SIZE : Nat := 16

/-- chip8.rs `NUM_REGS`. -/
def NUM_REGS : Nat := 16

/-- chip8.rs `START_ADDR`. -/
def START_ADDR : Nat := 0x200

/-- chip8.rs `SCREEN_WIDTH`. -/
def SCREEN_WIDTH : Nat := 64

/-- chip8.rs `SCREEN_HEIGHT`. -/
def SCREEN_HEIGHT : Nat := 32

/-- `CHIP8::new` in chip8.rs: zeroed state with `pc = START_ADDR`
(`CHIP8::reset` rebuilds exactly the same state). -/
def chip8_new : CHIP8 :=
  { ram := List.replicate RAM_SIZE 0
    stack := List.replicate STACK_SIZE 0
    v_reg := List.replicate NUM_REGS 0
    i_reg := 0
    sp := 0
    pc := START_ADDR
    dt := 0
    st := 0
    display := List.replicate (SCREEN_WIDTH * SCREEN_HEIGHT) false
    keys := List.replicate 16 false }

/-- emulator.rs `HEX_DIGITS`: the 80-byte font table. -/
def HEX_DIGITS : List Nat :=
  [0xF0, 0x90, 0x90, 0x90, 0xF0,
   0x20, 0x60, 0x20, 0x20, 0x70,
   0xF0, 0x10, 0xF0, 0x80, 0xF0,
   0xF0, 0x10, 0xF0, 0x10, 0xF0,
   0x90, 0x90, 0xF0, 0x10, 0x10,
   0xF0, 0x80, 0xF0, 0x10, 0xF0,
   0xF0, 0x80, 0xF0, 0x90, 0xF0,
   0xF0, 0x10, 0x20, 0x40, 0x40,
   0xF0, 0x90, 0xF0, 0x90, 0xF0,
   0xF0, 0x90, 0xF0, 0x10, 0xF0,
   0xF0, 0x90, 0xF0, 0x90, 0x90,
   0xE0, 0x90, 0xE0, 0x90, 0xE0,
   0xF0, 0x80, 0x80, 0x80, 0xF0,
   0xE0, 0x90, 0x90, 0x90, 0xE0,
   0xF0, 0x80, 0xF0, 0x80, 0xF0,
   0xF0, 0x80, 0xF0, 0x80, 0x80]

namespace Emulator

/-- emulator.rs `set_to_ram`: bounds-checked RAM write; `index >= ram.len()`
is reported as an error. -/
def set_to_ram (s : CHIP8) (index val : Nat) : Except EmuErr CHIP8 :=
  if index ≥ s.ram.length then .error .ramIndexFault
  else .ok { s with ram := s.ram.set index val }

/-- A read of `emu.get_ram()[addr]`: `get_ram` returns the whole array and the
caller indexes it directly, so an out-of-range address is a Rust panic
(`crash`), not an error return. -/
def ram_read (s : CHIP8) (addr : Nat) : Except EmuErr Nat :=
  if addr < s.ram.length then .ok (s.ram.getD addr 0) else .error .crash

/-- emulator.rs `get_v`: index above 0xF is an error. -/
def get_v (s : CHIP8) (index : Nat) : Except EmuErr Nat :=
  if index > 0xF then .error .vIndexFault
  else .ok (s.v_reg.getD index 0)

/-- emulator.rs `set_v`: index above 0xF is an error. -/
def set_v (s : CHIP8) (index val : Nat) : Except EmuErr CHIP8 :=
  if index > 0xF then .error .vIndexFault
  else .ok { s with v_reg := s.v_reg.set index val }

/-- emulator.rs `set_dt`. -/
def set_dt (s : CHIP8) (val : Nat) : CHIP8 := { s with dt := val }

/-- emulator.rs `set_st`. -/
def set_st (s : CHIP8) (val : Nat) : CHIP8 := { s with st := val }

/-- emulator.rs `dec_dt`: saturating decrement. -/
def dec_dt (s : CHIP8) : CHIP8 :=
  if s.dt > 0 then { s with dt := s.dt - 1 } else s

/-- emulator.rs `dec_st`: saturating decrement. -/
def dec_st (s : CHIP8) : CHIP8 :=
  if s.st > 0 then { s with st := s.st - 1 } else s

/-- emulator.rs `set_pc`. -/
def set_pc (s : CHIP8) (val : Nat) : CHIP8 := { s with pc := val }

/-- emulator.rs `inc_pc_by`: `pc += val` on a `u16`. -/
def inc_pc_by (s : CHIP8) (val : Nat) : CHIP8 :=
  { s with pc := (s.pc + val) % 65536 }

/-- emulator.rs `dec_pc_by`: `if pc > 0 { pc -= val }` on a `u16`
(wrapping subtraction for `val ≤ 65536`). -/
def dec_pc_by (s : CHIP8) (val : Nat) : CHIP8 :=
  if s.pc > 0 then { s with pc := (s.pc + 65536 - val) % 65536 } else s

/-- emulator.rs `set_i`. -/
def set_i (s : CHIP8) (val : Nat) : CHIP8 := { s with i_reg := val }

/-- emulator.rs `stack_pop`: underflow check, then `pc` receives the top
entry, the slot is zeroed and `sp` is decremented. -/
def stack_pop (s : CHIP8) : Except EmuErr CHIP8 :=
  if s.sp = 0 then .error .stackUnderflow
  else
    .ok { s with pc := s.stack.getD (s.sp - 1) 0
                 stack := s.stack.set (s.sp - 1) 0
                 sp := s.sp - 1 }

/-- emulator.rs `stack_push`: overflow check against `stack.len()`, then
`sp += 1`, the current `pc` is stored, and `pc` becomes `new_pc_addr`. -/
def stack_push (s : CHIP8) (new_pc_addr : Nat) : Except EmuErr CHIP8 :=
  if s.sp ≥ s.stack.length then .error .stackOverflow
  else
    .ok { s with sp := s.sp + 1
                 stack := s.stack.set s.sp s.pc
                 pc := new_pc_addr }

/-- emulator.rs `clear_screen`. -/
def clear_screen (s : CHIP8) : CHIP8 :=
  { s with display := List.replicate (SCREEN_WIDTH * SCREEN_HEIGHT) false }

/-- emulator.rs `is_key_pressed`: `self.chip8.keys[idx as usize]` is an
unchecked index into the 16-entry keypad array, so an index beyond the array
is a Rust panic. -/
def is_key_pressed (s : CHIP8) (idx : Nat) : Except EmuErr Bool :=
  if idx < s.keys.length then .ok (s.keys.getD idx false) else .error .crash

/-- emulator.rs `check_key_press`: the first index in `0..16` whose key is
held, if any. -/
def check_key_press (s : CHIP8) : Option Nat :=
  (List.range 16).find? (fun i => s.keys.getD i false)

/-- emulator.rs `load_hex_digits`: the font is copied byte by byte to
`ram[0..80]` after a size check. -/
def write_bytes_at (ram : List Nat) (base : Nat) (bytes : List Nat) : List Nat :=
  match bytes with
  | [] => ram
  | b :: rest => write_bytes_at (ram.set base b) (base + 1) rest

/-- emulator.rs `load_hex_digits`. -/
def load_hex_digits (s : CHIP8) : Except EmuErr CHIP8 :=
  if HEX_DIGITS.length > s.ram.length then .error .romTooLarge
  else .ok { s with ram := write_bytes_at s.ram 0 HEX_DIGITS }

/-- emulator.rs `load_rom_file`, with the file read modelled as the byte list
it yields.  The source checks `byte_vec.len() > 3584` and then returns
`Ok(())` without ever writing `byte_vec` into RAM: the validated bytes are
dropped. -/
def load_rom_file (bytes : List Nat) (s : CHIP8) : Except EmuErr CHIP8 :=
  if bytes.length > 3584 then .error .romTooLarge
  else .ok s

/-- emulator.rs `init_ram`: `load_rom_file` then `load_hex_digits`. -/
def init_ram (bytes : List Nat) (s : CHIP8) : Except EmuErr CHIP8 :=
  match load_rom_file bytes s with
  | .error e => .error e
  | .ok t => load_hex_digits t

end Emulator

/-- The instruction type of instruction.rs (`enum Instruction`). -/
inductive Instruction where
  | Nop
  | Cls
  | Ret
  | Jmp (addr : Nat)
  | Call (addr : Nat)
  | SeVx (x byte : Nat)
  | SneVx (x byte : Nat)
  | SeVxVy (x y : Nat)
  | LdVx (x byte : Nat)
  | AddVx (x byte : Nat)
  | LdVxVy (x y : Nat)
  | OrVxVy (x y : Nat)
  | AndVxVy (x y : Nat)
  | XorVxVy (x y : Nat)
  | AddVxVy (x y : Nat)
  | SubVxVy (x y : Nat)
  | ShrVx (x : Nat)
  | SubnVxVy (x y : Nat)
  | ShlVx (x : Nat)
  | SneVxVy (x y : Nat)
  | LdI (addr : Nat)
  | JpV0 (addr : Nat)
  | Rnd (x byte : Nat)
  | Drw (x y nibble : Nat)
  | SkpVx (x : Nat)
  | SknpVx (x : Nat)
  | LdVxDt (x : Nat)
  | LdVxK (x : Nat)
  | LdDtVx (x : Nat)
  | LdStVx (x : Nat)
  | AddIVx (x : Nat)
  | LdFVx (x : Nat)
  | LdBVx (x : Nat)
  | LdIVx (x : Nat)
  | LdVxI (x : Nat)
deriving DecidableEq, Repr

namespace Exec

open Emulator

/-- The inner column loop of `Drw` in instruction.rs: for each set sprite bit
the collision flag is OR-ed with the corresponding pixel of `s.display`.
The source line `emu.get_display()[index] ^= true;` applies the XOR to the
array value returned by `get_display`, which is a copy of the display
(`[bool; 2048]` is returned by value), so the stored display is never
modified and every read sees the original screen contents. -/
def drw_row (s : CHIP8) (pixel_row vx vy ord : Nat) : Bool :=
  (List.range 8).foldl
    (fun coll absc =>
      if pixel_row &&& (128 >>> absc) ≠ 0 then
        coll || s.display.getD ((vx + absc) % SCREEN_WIDTH
                  + ((vy + ord) % SCREEN_HEIGHT) * SCREEN_WIDTH) false
      else coll)
    false

/-- The row loop of `Drw`: each row reads `ram[(i_reg + ordinate) as usize]`
by unchecked index (`crash` when the address is out of range). -/
def drw_loop (s : CHIP8) (vx vy : Nat) (ords : List Nat) (coll : Bool) :
    Except EmuErr Bool :=
  match ords with
  | [] => .ok coll
  | ord :: rest =>
    match ram_read s ((s.i_reg + ord) % 65536) with
    | .error e => .error e
    | .ok pixel_row => drw_loop s vx vy rest (coll || drw_row s pixel_row vx vy ord)

/-- The `LdIVx` (FX55) loop: `for index in 0..=x` store `V[index]` to
`ram[i + index]` through the bounds-checked `set_to_ram`. -/
def st_regs_to_ram (s : CHIP8) (i : Nat) (idxs : List Nat) : Except EmuErr CHIP8 :=
  match idxs with
  | [] => .ok s
  | k :: rest =>
    match get_v s k with
    | .error e => .error e
    | .ok v =>
      match set_to_ram s (i + k) v with
      | .error e => .error e
      | .ok t => st_regs_to_ram t i rest

/-- The `LdVxI` (FX65) loop: `for idx in 0..=x` read `ram[i + idx]` by
unchecked index and store it in `V[idx]`. -/
def ld_regs_from_ram (s : CHIP8) (i : Nat) (idxs : List Nat) : Except EmuErr CHIP8 :=
  match idxs with
  | [] => .ok s
  | k :: rest =>
    match ram_read s (i + k) with
    | .error e => .error e
    | .ok value =>
      match set_v s k value with
      | .error e => .error e
      | .ok t => ld_regs_from_ram t i rest

/-- `Instruction::execute` of instruction.rs.  The `rnd` argument is the byte
sampled from `rand::thread_rng().gen_range(0..=255)` in the `Rnd` branch.
The returned `Bool` is the final value of the `is_inc_pc` out-parameter,
which enters as `true`. -/
def execute (ins : Instruction) (rnd : Nat) (s : CHIP8) :
    Except EmuErr (CHIP8 × Bool) :=
  match ins with
  | .Nop => .ok (s, true)
  | .Cls => .ok (clear_screen s, true)
  | .Ret =>
    match stack_pop s with
    | .error e => .error e
    | .ok t => .ok (t, true)
  | .Jmp addr => .ok (set_pc s addr, false)
  | .Call addr =>
    match stack_push s s.pc with
    | .error e => .error e
    | .ok t => .ok (set_pc t addr, false)
  | .SeVx x byte =>
    match get_v s x with
    | .error e => .error e
    | .ok v => .ok (if v = byte then (inc_pc_by s 2, true) else (s, true))
  | .SneVx x byte =>
    match get_v s x with
    | .error e => .error e
    | .ok v => .ok (if v ≠ byte then (inc_pc_by s 2, true) else (s, true))
  | .SeVxVy x y =>
    match get_v s x with
    | .error e => .error e
    | .ok vx =>
      match get_v s y with
      | .error e => .error e
      | .ok vy => .ok (if vx = vy then (inc_pc_by s 2, true) else (s, true))
  | .LdVx x byte =>
    match set_v s x byte with
    | .error e => .error e
    | .ok t => .ok (t, true)
  | .AddVx x byte =>
    match get_v s x with
    | .error e => .error e
    | .ok vx =>
      match set_v s x ((vx + byte) % 256) with
      | .error e => .error e
      | .ok t => .ok (t, true)
  | .LdVxVy x y =>
    match get_v s y with
    | .error e => .error e
    | .ok vy =>
      match set_v s x vy with
      | .error e => .error e
      | .ok t => .ok (t, true)
  | .OrVxVy x y =>
    match get_v s x with
    | .error e => .error e
    | .ok vx =>
      match get_v s y with
      | .error e => .error e
      | .ok vy =>
        match set_v s x (vx ||| vy) with
        | .error e => .error e
        | .ok t => .ok (t, true)
  | .AndVxVy x y =>
    match get_v s x with
    | .error e => .error e
    | .ok vx =>
      match get_v s y with
      | .error e => .error e
      | .ok vy =>
        match set_v s x (vx &&& vy) with
        | .error e => .error e
        | .ok t => .ok (t, true)
  | .XorVxVy x y =>
    match get_v s x with
    | .error e => .error e
    | .ok vx =>
      match get_v s y with
      | .error e => .error e
      | .ok vy =>
        match set_v s x (vx ^^^ vy) with
        | .error e => .error e
        | .ok t => .ok (t, true)
  | .AddVxVy x y =>
    match get_v s x with
    | .error e => .error e
    | .ok vx =>
      match get_v s y with
      | .error e => .error e
      | .ok vy =>
        match set_v s 0xF (if 255 < vx + vy then 1 else 0) with
        | .error e => .error e
        | .ok t =>
          match set_v t x ((vx + vy) % 256) with
          | .error e => .error e
          | .ok u => .ok (u, true)
  | .SubVxVy x y =>
    match get_v s x with
    | .error e => .error e
    | .ok vx =>
      match get_v s y with
      | .error e => .error e
      | .ok vy =>
        match set_v s 0xF (if vx < vy then 0 else 1) with
        | .error e => .error e
        | .ok t =>
          match set_v t x ((vx + 256 - vy) % 256) with
          | .error e => .error e
          | .ok u => .ok (u, true)
  | .ShrVx x =>
    match get_v s x with
    | .error e => .error e
    | .ok vx =>
      match set_v s 0xF (vx &&& 1) with
      | .error e => .error e
      | .ok t =>
        match set_v t x (vx >>> 1) with
        | .error e => .error e
        | .ok u => .ok (u, true)
  | .SubnVxVy x y =>
    match get_v s x with
    | .error e => .error e
    | .ok vx =>
      match get_v s y with
      | .error e => .error e
      | .ok vy =>
        match set_v s 0xF (if vy < vx then 0 else 1) with
        | .error e => .error e
        | .ok t =>
          match set_v t x ((vy + 256 - vx) % 256) with
          | .error e => .error e
          | .ok u => .ok (u, true)
  | .ShlVx x =>
    match get_v s x with
    | .error e => .error e
    | .ok vx =>
      match set_v s 0xF ((vx &&& 128) >>> 7) with
      | .error e => .error e
      | .ok t =>
        match set_v t x ((vx * 2) % 256) with
        | .error e => .error e
        | .ok u => .ok (u, true)
  | .SneVxVy x y =>
    match get_v s x with
    | .error e => .error e
    | .ok vx =>
      match get_v s y with
      | .error e => .error e
      | .ok vy => .ok (if vx ≠ vy then (inc_pc_by s 2, true) else (s, true))
  | .LdI addr => .ok (set_i s addr, true)
  | .JpV0 addr =>
    match get_v s 0 with
    | .error e => .error e
    | .ok v0 => .ok (set_pc s ((addr + v0) % 65536), true)
  | .Rnd x byte =>
    match set_v s x ((rnd % 256) &&& byte) with
    | .error e => .error e
    | .ok t => .ok (t, true)
  | .Drw x y nibble =>
    match get_v s x with
    | .error e => .error e
    | .ok vx =>
      match get_v s y with
      | .error e => .error e
      | .ok vy =>
        match drw_loop s vx vy (List.range nibble) false with
        | .error e => .error e
        | .ok coll =>
          match set_v s 0xF (if coll then 1 else 0) with
          | .error e => .error e
          | .ok t => .ok (t, true)
  | .SkpVx x =>
    match get_v s x with
    | .error e => .error e
    | .ok vx =>
      match is_key_pressed s vx with
      | .error e => .error e
      | .ok pressed => .ok (if pressed then (inc_pc_by s 2, true) else (s, true))
  | .SknpVx x =>
    match get_v s x with
    | .error e => .error e
    | .ok vx =>
      match is_key_pressed s vx with
      | .error e => .error e
      | .ok pressed => .ok (if pressed then (s, true) else (inc_pc_by s 2, true))
  | .LdVxDt x =>
    match set_v s x s.dt with
    | .error e => .error e
    | .ok t => .ok (t, true)
  | .LdVxK x =>
    match check_key_press s with
    | some key =>
      match set_v s x key with
      | .error e => .error e
      | .ok t => .ok (t, true)
    | none => .ok (dec_pc_by s 2, false)
  | .LdDtVx x =>
    match get_v s x with
    | .error e => .error e
    | .ok vx => .ok (set_dt s vx, true)
  | .LdStVx x =>
    match get_v s x with
    | .error e => .error e
    | .ok vx => .ok (set_st s vx, true)
  | .AddIVx x =>
    match get_v s x with
    | .error e => .error e
    | .ok vx => .ok (set_i s ((s.i_reg + vx) % 65536), true)
  | .LdFVx x =>
    match get_v s x with
    | .error e => .error e
    | .ok vx => .ok (set_i s (5 * vx), true)
  | .LdBVx x =>
    match get_v s x with
    | .error e => .error e
    | .ok vx =>
      match set_to_ram s s.i_reg (vx / 100) with
      | .error e => .error e
      | .ok t =>
        match set_to_ram t (t.i_reg + 1) ((vx / 10) % 10) with
        | .error e => .error e
        | .ok u =>
          match set_to_ram u (u.i_reg + 2) (vx % 10) with
          | .error e => .error e
          | .ok w => .ok (w, true)
  | .LdIVx x =>
    match st_regs_to_ram s s.i_reg (List.range (x + 1)) with
    | .error e => .error e
    | .ok t => .ok (t, true)
  | .LdVxI x =>
    match ld_regs_from_ram s s.i_reg (List.range (x + 1)) with
    | .error e => .error e
    | .ok t => .ok (t, true)

end Exec

/-- The two quirk switches held by `CpuController` in cpu.rs.  The field
comments there document that `bit_shift_instructions_use_vy` should make
8XY6/8XYE read VY and that `store_read_instructions_change_i` should make
FX55/FX65 advance I. -/
structure CpuConfig where
  bit_shift_instructions_use_vy : Bool
  store_read_instructions_change_i : Bool
deriving DecidableEq, Repr

/-- The defaults named by the specification: `shift_uses_vy = false`,
`load_store_advances_i = true`. -/
def default_cfg : CpuConfig :=
  { bit_shift_instructions_use_vy := false
    store_read_instructions_change_i := true }

namespace Cpu

open Emulator Exec

/-- The decoder of cpu.rs `exec_instruction`: a match on the first nibble
(and on further fields where needed) selecting the instruction.  The
controller's quirk configuration is in scope (`cfg`) but no branch of the
match consults it. -/
def decode (cfg : CpuConfig) (word : Nat) : Except EmuErr Instruction :=
  let first_nibble := (word >>> 12) &&& 0xF
  let x := (word >>> 8) &&& 0xF
  let y := (word >>> 4) &&& 0xF
  let nibble := word &&& 0xF
  let byte := word &&& 0xFF
  let addr := (x <<< 8) ||| (y <<< 4) ||| nibble
  match first_nibble with
  | 0x0 =>
    if word % 65536 = 0x0000 then .ok .Nop
    else if word % 65536 = 0x00E0 then .ok .Cls
    else if word % 65536 = 0x00EE then .ok .Ret
    else .error .unsupported
  | 0x1 => .ok (.Jmp addr)
  | 0x2 => .ok (.Call addr)
  | 0x3 => .ok (.SeVx x byte)
  | 0x4 => .ok (.SneVx x byte)
  | 0x5 => .ok (.SeVxVy x y)
  | 0x6 => .ok (.LdVx x byte)
  | 0x7 => .ok (.AddVx x byte)
  | 0x8 =>
    match nibble with
    | 0x0 => .ok (.LdVxVy x y)
    | 0x1 => .ok (.OrVxVy x y)
    | 0x2 => .ok (.AndVxVy x y)
    | 0x3 => .ok (.XorVxVy x y)
    | 0x4 => .ok (.AddVxVy x y)
    | 0x5 => .ok (.SubVxVy x y)
    | 0x6 => .ok (.ShrVx x)
    | 0x7 => .ok (.SubnVxVy x y)
    | 0xE => .ok (.ShlVx x)
    | _ => .error .unsupported
  | 0x9 => .ok (.SneVxVy x y)
  | 0xA => .ok (.LdI addr)
  | 0xB => .ok (.JpV0 addr)
  | 0xC => .ok (.Rnd x byte)
  | 0xD => .ok (.Drw x y nibble)
  | 0xE =>
    match byte with
    | 0x9E => .ok (.SkpVx x)
    | 0xA1 => .ok (.SknpVx x)
    | _ => .error .unsupported
  | 0xF =>
    match byte with
    | 0x07 => .ok (.LdVxDt x)
    | 0x0A => .ok (.LdVxK x)
    | 0x15 => .ok (.LdDtVx x)
    | 0x18 => .ok (.LdStVx x)
    | 0x1E => .ok (.AddIVx x)
    | 0x29 => .ok (.LdFVx x)
    | 0x33 => .ok (.LdBVx x)
    | 0x55 => .ok (.LdIVx x)
    | 0x65 => .ok (.LdVxI x)
    | _ => .error .unsupported
  | _ => .error .unsupported

/-- One cycle at the instruction level, following cpu.rs `fetch_exec`:
execute with `is_inc_pc = true`, then advance `pc` by 2 when the flag is
still set. -/
def run_cycle (ins : Instruction) (rnd : Nat) (s : CHIP8) : Except EmuErr CHIP8 :=
  match Exec.execute ins rnd s with
  | .error e => .error e
  | .ok (t, b) => .ok (if b then inc_pc_by t 2 else t)

/-- cpu.rs `exec_instruction` additionally clears `is_inc_pc` itself in its
`0x1`, `0x2` and `0xB` dispatch arms. -/
def dispatch_flag (word : Nat) (b : Bool) : Bool :=
  if (word >>> 12) &&& 0xF = 0x1 ∨ (word >>> 12) &&& 0xF = 0x2
      ∨ (word >>> 12) &&& 0xF = 0xB then false
  else b

/-- The big-endian instruction word at `pc`, as read by `CpuController::new`
through `BitManipulation::combine_bytes_to_16bit_instruction`. -/
def fetch_word (s : CHIP8) : Nat :=
  (s.ram.getD s.pc 0) * 256 + s.ram.getD (s.pc + 1) 0

/-- A full fetch/decode/execute cycle: the word is read big-endian at `pc`
with the bounds check of `CpuController::new`, decoded, executed, and `pc`
is advanced by 2 unless the flag was cleared (by the instruction or by the
dispatch arms for 1NNN/2NNN/BNNN). -/
def fetch_exec (cfg : CpuConfig) (rnd : Nat) (s : CHIP8) : Except EmuErr CHIP8 :=
  if s.pc + 1 ≥ s.ram.length then .error .fetchFault
  else
    match decode cfg (fetch_word s) with
    | .error e => .error e
    | .ok ins =>
      match Exec.execute ins rnd s with
      | .error e => .error e
      | .ok (t, b) => .ok (if dispatch_flag (fetch_word s) b then inc_pc_by t 2 else t)

/-- The states reachable from the reset state `chip8_new` by complete
machine cycles (over every configuration and every sampled random byte). -/
inductive Reachable : CHIP8 → Prop where
  | reset : Reachable chip8_new
  | step {s s' : CHIP8} (cfg : CpuConfig) (rnd : Nat) :
      Reachable s → fetch_exec cfg rnd s = .ok s' → Reachable s'

end Cpu

section Helpers

/-- Reading a set list at a different index is unchanged. -/
theorem list_getD_set_ne (l : List Nat) (v d : Nat) {i j : Nat} (h : i ≠ j) :
    (l.set i v).getD j d = l.getD j d := by
  simp [List.getD, List.getElem?_set, h]

/-- Reading a set list at the written index yields the written value. -/
theorem list_getD_set_self (l : List Nat) (v d : Nat) {i : Nat} (h : i < l.length) :
    (l.set i v).getD i d = v := by
  simp [List.getD, List.getElem?_set, h]

/-- `set_v` only rewrites `v_reg`. -/
theorem set_v_frame {s t : CHIP8} {i v : Nat} (h : Emulator.set_v s i v = .ok t) :
    t.ram = s.ram ∧ t.stack = s.stack ∧ t.i_reg = s.i_reg ∧ t.sp = s.sp
      ∧ t.pc = s.pc ∧ t.dt = s.dt ∧ t.st = s.st ∧ t.display = s.display
      ∧ t.keys = s.keys ∧ t.v_reg = s.v_reg.set i v := by
  unfold Emulator.set_v at h
  split at h
  · exact absurd h (by simp)
  · cases h
    simp

/-- `set_to_ram` only rewrites `ram`. -/
theorem set_to_ram_frame {s t : CHIP8} {i v : Nat}
    (h : Emulator.set_to_ram s i v = .ok t) :
    t.v_reg = s.v_reg ∧ t.stack = s.stack ∧ t.i_reg = s.i_reg ∧ t.sp = s.sp
      ∧ t.pc = s.pc ∧ t.dt = s.dt ∧ t.st = s.st ∧ t.display = s.display
      ∧ t.keys = s.keys ∧ t.ram = s.ram.set i v := by
  unfold Emulator.set_to_ram at h
  split at h
  · exact absurd h (by simp)
  · cases h
    simp

/-- `get_v` succeeds exactly for indices up to 0xF and returns the register. -/
theorem get_v_ok {s : CHIP8} {i : Nat} (h : i ≤ 0xF) :
    Emulator.get_v s i = .ok (s.v_reg.getD i 0) := by
  unfold Emulator.get_v
  simp [Nat.not_lt.mpr h]

/-- Reading a replicated list within range yields the replicated element. -/
theorem list_getD_replicate {n i : Nat} (v d : Nat) (h : i < n) :
    (List.replicate n v).getD i d = v := by
  rw [List.getD_eq_getElem _ _ (by simpa using h)]
  simp

/-- Reading a replicated `false` list with default `false` is always `false`. -/
theorem list_getD_replicate_false (n i : Nat) :
    (List.replicate n false).getD i false = false := by
  by_cases h : i < n
  · rw [List.getD_eq_getElem _ _ (by simpa using h)]
    simp
  · exact List.getD_eq_default _ _ (by simpa using Nat.le_of_not_lt h)

/-- `write_bytes_at` preserves the list length. -/
theorem write_bytes_at_length (bytes : List Nat) (ram : List Nat) (base : Nat) :
    (Emulator.write_bytes_at ram base bytes).length = ram.length := by
  induction bytes generalizing ram base with
  | nil => rfl
  | cons b rest ih => simp [Emulator.write_bytes_at, ih]

/-- `write_bytes_at` does not touch indices at or beyond `base + bytes.length`. -/
theorem write_bytes_at_getD_ge (bytes : List Nat) (ram : List Nat) (base j d : Nat)
    (h : base + bytes.length ≤ j) :
    (Emulator.write_bytes_at ram base bytes).getD j d = ram.getD j d := by
  induction bytes generalizing ram base with
  | nil => rfl
  | cons b rest ih =>
    rw [Emulator.write_bytes_at, ih _ _ (by simp at h; omega)]
    exact list_getD_set_ne _ _ _ (by simp at h; omega)

/-- `write_bytes_at` does not touch indices below `base`. -/
theorem write_bytes_at_getD_lt (bytes : List Nat) (ram : List Nat) (base j d : Nat)
    (h : j < base) :
    (Emulator.write_bytes_at ram base bytes).getD j d = ram.getD j d := by
  induction bytes generalizing ram base with
  | nil => rfl
  | cons b rest ih =>
    rw [Emulator.write_bytes_at, ih _ _ (by omega)]
    exact list_getD_set_ne _ _ _ (by omega)

/-- Inside the written window, `write_bytes_at` returns the written bytes. -/
theorem write_bytes_at_getD_in (bytes : List Nat) (ram : List Nat) (base j d : Nat)
    (hlo : base ≤ j) (hhi : j < base + bytes.length) (hram : base + bytes.length ≤ ram.length) :
    (Emulator.write_bytes_at ram base bytes).getD j d = bytes.getD (j - base) d := by
  induction bytes generalizing ram base with
  | nil => simp at hhi; omega
  | cons b rest ih =>
    rw [Emulator.write_bytes_at]
    by_cases hj : j = base
    · subst hj
      rw [write_bytes_at_getD_lt _ _ _ _ _ (by omega)]
      rw [list_getD_set_self _ _ _ (by simp at hram; omega)]
      simp
    · rw [ih _ _ (by omega) (by simp at hhi ⊢; omega)
        (by rw [List.length_set]; simp at hram ⊢; omega)]
      have hsub : j - base = (j - (base + 1)) + 1 := by omega
      rw [hsub]
      simp

/-- A fold whose step function never changes the accumulator returns it. -/
theorem foldl_const {α β : Type} (f : α → β → α) (l : List β) (c : α)
    (h : ∀ a b, f a b = a) : l.foldl f c = c := by
  induction l generalizing c with
  | nil => rfl
  | cons b rest ih => simp [List.foldl, h, ih]

/-- With an all-dark display every column scan of `Drw` reports no collision. -/
theorem drw_row_of_display_all_false (s : CHIP8)
    (hd : s.display = List.replicate (SCREEN_WIDTH * SCREEN_HEIGHT) false)
    (pr vx vy ord : Nat) : Exec.drw_row s pr vx vy ord = false := by
  unfold Exec.drw_row
  apply foldl_const
  intro a b
  rw [hd]
  rw [list_getD_replicate_false]
  by_cases hb : pr &&& (128 >>> b) ≠ 0 <;> simp [hb]

/-- With an all-dark display the row loop of `Drw` succeeds with collision
`false` whenever every row address is in range. -/
theorem drw_loop_of_display_all_false (s : CHIP8)
    (hd : s.display = List.replicate (SCREEN_WIDTH * SCREEN_HEIGHT) false)
    (vx vy : Nat) (ords : List Nat)
    (h : ∀ o ∈ ords, (s.i_reg + o) % 65536 < s.ram.length) :
    Exec.drw_loop s vx vy ords false = .ok false := by
  induction ords with
  | nil => rfl
  | cons o rest ih =>
    have ho : (s.i_reg + o) % 65536 < s.ram.length := h o (by simp)
    rw [Exec.drw_loop]
    unfold Emulator.ram_read
    rw [if_pos ho]
    show Exec.drw_loop s vx vy rest
        (false || Exec.drw_row s (s.ram.getD ((s.i_reg + o) % 65536) 0) vx vy o) = .ok false
    rw [drw_row_of_display_all_false s hd]
    simpa using ih (fun o ho => h o (by simp [ho]))

end Helpers

section ClaimC2

/-- Concrete input for C2: the one-byte ROM `[0xAB]`. -/
def c2_rom : List Nat := [0xAB]

/-- C2: the loader is claimed to copy the ROM bytes to `RAM[0x200..]` on
success.  The code only length-checks the bytes and never copies them:
loading the one-byte ROM `[0xAB]` succeeds, yet `RAM[0x200]` still holds 0
(while the font did land at `RAM[0]`), and the oversize check alone behaves
as claimed. -/
theorem c2_rom_bytes_never_copied :
    (∃ s, Emulator.init_ram c2_rom chip8_new = .ok s
        ∧ s.ram.getD 0x200 99 = 0 ∧ s.ram.getD 0 0 = 0xF0)
    ∧ Emulator.init_ram (List.replicate 3585 0) chip8_new = .error .romTooLarge
    ∧ (0 : Nat) ≠ 0xAB := by
  have hhex : HEX_DIGITS.length = 80 := by rfl
  have hram : chip8_new.ram = List.replicate 4096 0 := by rfl
  have hramlen : chip8_new.ram.length = 4096 := by rw [hram, List.length_replicate]
  refine ⟨?_, ?_, by decide⟩
  · have hlr : Emulator.load_rom_file c2_rom chip8_new = .ok chip8_new := by
      unfold Emulator.load_rom_file
      rw [if_neg (by norm_num [c2_rom])]
    refine ⟨{ chip8_new with ram := Emulator.write_bytes_at chip8_new.ram 0 HEX_DIGITS },
      ?_, ?_, ?_⟩
    · unfold Emulator.init_ram
      rw [hlr]
      show Emulator.load_hex_digits chip8_new = _
      unfold Emulator.load_hex_digits
      rw [if_neg (by rw [hhex, hramlen]; norm_num)]
    · show (Emulator.write_bytes_at chip8_new.ram 0 HEX_DIGITS).getD 0x200 99 = 0
      rw [write_bytes_at_getD_ge _ _ _ _ _ (by rw [hhex]; norm_num)]
      rw [hram, list_getD_replicate _ _ (by norm_num)]
    · show (Emulator.write_bytes_at chip8_new.ram 0 HEX_DIGITS).getD 0 0 = 0xF0
      rw [write_bytes_at_getD_in _ _ _ _ _ (Nat.le_refl 0) (by rw [hhex]; norm_num)
        (by rw [hhex, hramlen]; norm_num)]
      rfl
  · have hlr2 : Emulator.load_rom_file (List.replicate 3585 0) chip8_new
        = .error .romTooLarge := by
      unfold Emulator.load_rom_file
      rw [if_pos (by rw [List.length_replicate]; norm_num)]
    unfold Emulator.init_ram
    rw [hlr2]

end ClaimC2

section ClaimC5

/-- Concrete input for C5: all registers zero except `VF = 255`. -/
def c5_state : CHIP8 := { chip8_new with v_reg := (List.replicate 16 0).set 15 255 }

/-- C5 counterexample: executing `8FF4` (ADD VF, VF) with `VF = 255` must,
per the claim, leave `VF` holding the carry flag 1; the code writes the flag
first and the sum second, so `VF` ends with the arithmetic result 254. -/
theorem c5_vf_holds_result_not_flag :
    (Exec.execute (.AddVxVy 15 15) 0 c5_state).map
        (fun p => p.1.v_reg.getD 15 0) = .ok 254
    ∧ (254 : Nat) ≠ 1 := by
  exact ⟨by rfl, by decide⟩

end ClaimC5

section ClaimC8

/-- Concrete input for C8: reset state with `I = 4095`. -/
def c8_state : CHIP8 := { chip8_new with i_reg := 4095 }

/-- C8: a two-row draw starting at `I = 4095` reads `ram[4096]` through the
unchecked index `emu.get_ram()[addr as usize]`, which is a Rust panic
(`crash`), not the claimed IndexFault-style error result. -/
theorem c8_drw_oob_read_is_crash :
    Exec.execute (.Drw 0 1 2) 0 c8_state = .error .crash
    ∧ EmuErr.crash ≠ EmuErr.ramIndexFault := by
  refine ⟨?_, by decide⟩
  have hlen : c8_state.ram.length = 4096 := by
    show (List.replicate RAM_SIZE 0).length = 4096
    rw [List.length_replicate]
    rfl
  have hd : c8_state.display = List.replicate (SCREEN_WIDTH * SCREEN_HEIGHT) false := by rfl
  have hi4095 : c8_state.i_reg = 4095 := by rfl
  have hloop : Exec.drw_loop c8_state 0 0 (List.range 2) false = .error .crash := by
    have hr2 : List.range 2 = [0, 1] := by rfl
    rw [hr2, Exec.drw_loop]
    unfold Emulator.ram_read
    rw [if_pos (by rw [hlen, hi4095]; norm_num)]
    show Exec.drw_loop c8_state 0 0 [1]
        (false || Exec.drw_row c8_state
          (c8_state.ram.getD ((c8_state.i_reg + 0) % 65536) 0) 0 0 0) = .error .crash
    rw [drw_row_of_display_all_false c8_state hd]
    show Exec.drw_loop c8_state 0 0 [1] false = .error .crash
    rw [Exec.drw_loop]
    unfold Emulator.ram_read
    rw [if_neg (by rw [hlen, hi4095]; norm_num)]
  have hv : ∀ i, i ≤ 0xF → Emulator.get_v c8_state i = .ok 0 := by
    intro i hi
    rw [get_v_ok hi]
    simp only [c8_state, chip8_new, NUM_REGS]
    rw [list_getD_replicate _ _ (by omega)]
  simp [Exec.execute, hv 0 (by norm_num), hv 1 (by norm_num), hloop]

end ClaimC8

section FetchHelpers

/-- The reset RAM has length 4096. -/
theorem chip8_new_ram_length : chip8_new.ram.length = 4096 := by
  show (List.replicate RAM_SIZE 0).length = 4096
  rw [List.length_replicate]
  rfl

/-- One `fetch_exec` cycle, rewritten through the two fetched bytes. -/
theorem fetch_exec_step (cfg : CpuConfig) (rnd : Nat) (s : CHIP8) (b1 b2 : Nat)
    (hlen : s.pc + 1 < s.ram.length)
    (h1 : s.ram.getD s.pc 0 = b1) (h2 : s.ram.getD (s.pc + 1) 0 = b2) :
    Cpu.fetch_exec cfg rnd s =
      (match Cpu.decode cfg (b1 * 256 + b2) with
       | .error e => .error e
       | .ok ins =>
         match Exec.execute ins rnd s with
         | .error e => .error e
         | .ok (t, b) =>
           .ok (if Cpu.dispatch_flag (b1 * 256 + b2) b then Emulator.inc_pc_by t 2 else t)) := by
  unfold Cpu.fetch_exec Cpu.fetch_word
  rw [if_neg (by omega)]
  rw [h1, h2]

end FetchHelpers

section ClaimC6

/-- A configuration with the shift quirk enabled. -/
def quirk_cfg : CpuConfig :=
  { bit_shift_instructions_use_vy := true
    store_read_instructions_change_i := true }

/-- Concrete input for C6: word `8016` at `0x200`, `V0 = 2`, `V1 = 1`. -/
def c6_state : CHIP8 :=
  { chip8_new with
      ram := (chip8_new.ram.set 0x200 0x80).set 0x201 0x16
      v_reg := ((List.replicate 16 0).set 0 2).set 1 1 }

/-- C6: with `shift_uses_vy = true` the claim makes `8016` read `V1 = 1`
(giving `V0 = 0`, `VF = 1`); the code never consults the flag and shifts
`V0 = 2` itself, giving `V0 = 1`, `VF = 0`. -/
theorem c6_shift_quirk_ignored :
    (∃ t, Cpu.fetch_exec quirk_cfg 0 c6_state = .ok t
        ∧ t.v_reg.getD 0 0 = 1 ∧ t.v_reg.getD 15 0 = 0 ∧ t.pc = 0x202)
    ∧ ¬((1 : Nat) = 0 ∧ (0 : Nat) = 1) := by
  refine ⟨?_, by decide⟩
  have hpc : c6_state.pc = 0x200 := rfl
  have hlen : c6_state.ram.length = 4096 := by
    show ((chip8_new.ram.set 0x200 0x80).set 0x201 0x16).length = 4096
    rw [List.length_set, List.length_set, chip8_new_ram_length]
  have h1 : c6_state.ram.getD c6_state.pc 0 = 0x80 := by
    rw [hpc]
    show ((chip8_new.ram.set 0x200 0x80).set 0x201 0x16).getD 0x200 0 = 0x80
    rw [list_getD_set_ne _ _ _ (by norm_num)]
    exact list_getD_set_self _ _ _ (by rw [chip8_new_ram_length]; norm_num)
  have h2 : c6_state.ram.getD (c6_state.pc + 1) 0 = 0x16 := by
    rw [hpc]
    show ((chip8_new.ram.set 0x200 0x80).set 0x201 0x16).getD 0x201 0 = 0x16
    exact list_getD_set_self _ _ _
      (by rw [List.length_set, chip8_new_ram_length]; norm_num)
  have hstep := fetch_exec_step quirk_cfg 0 c6_state 0x80 0x16
    (by rw [hlen, hpc]; norm_num) h1 h2
  have hdec : Cpu.decode quirk_cfg (0x80 * 256 + 0x16) = .ok (.ShrVx 0) := by rfl
  have hfin : Cpu.fetch_exec quirk_cfg 0 c6_state
      = .ok { c6_state with v_reg := (c6_state.v_reg.set 15 0).set 0 1, pc := 0x202 } := by
    rw [hstep, hdec]
    rfl
  exact ⟨_, hfin, rfl, rfl, rfl⟩

end ClaimC6

section ClaimC7

/-- Concrete input for C7: word `F055` at `0x200`, `V0 = 7`, `I = 0x300`,
under the default configuration (`load_store_advances_i = true`). -/
def c7_state : CHIP8 :=
  { chip8_new with
      ram := (chip8_new.ram.set 0x200 0xF0).set 0x201 0x55
      v_reg := (List.replicate 16 0).set 0 7
      i_reg := 0x300 }

/-- C7: `FX55` does store `V0..VX` to `RAM[I..I+X]`, but even with
`store_read_instructions_change_i = true` the code leaves `I` untouched,
whereas the claim requires `I = I + X + 1 = 0x301`. -/
theorem c7_load_store_quirk_ignored :
    (∃ t, Cpu.fetch_exec default_cfg 0 c7_state = .ok t
        ∧ t.i_reg = 0x300 ∧ t.ram.getD 0x300 0 = 7 ∧ t.pc = 0x202)
    ∧ (0x300 : Nat) ≠ 0x300 + 0 + 1 := by
  refine ⟨?_, by decide⟩
  have hpc : c7_state.pc = 0x200 := rfl
  have hlen : c7_state.ram.length = 4096 := by
    show ((chip8_new.ram.set 0x200 0xF0).set 0x201 0x55).length = 4096
    rw [List.length_set, List.length_set, chip8_new_ram_length]
  have h1 : c7_state.ram.getD c7_state.pc 0 = 0xF0 := by
    rw [hpc]
    show ((chip8_new.ram.set 0x200 0xF0).set 0x201 0x55).getD 0x200 0 = 0xF0
    rw [list_getD_set_ne _ _ _ (by norm_num)]
    exact list_getD_set_self _ _ _ (by rw [chip8_new_ram_length]; norm_num)
  have h2 : c7_state.ram.getD (c7_state.pc + 1) 0 = 0x55 := by
    rw [hpc]
    show ((chip8_new.ram.set 0x200 0xF0).set 0x201 0x55).getD 0x201 0 = 0x55
    exact list_getD_set_self _ _ _
      (by rw [List.length_set, chip8_new_ram_length]; norm_num)
  have hstep := fetch_exec_step default_cfg 0 c7_state 0xF0 0x55
    (by rw [hlen, hpc]; norm_num) h1 h2
  have hdec : Cpu.decode default_cfg (0xF0 * 256 + 0x55) = .ok (.LdIVx 0) := by rfl
  have hv0 : Emulator.get_v c7_state 0 = .ok 7 := by rfl
  have hst : Emulator.set_to_ram c7_state (0x300 + 0) 7
      = .ok { c7_state with ram := c7_state.ram.set (0x300 + 0) 7 } := by
    unfold Emulator.set_to_ram
    rw [if_neg (by rw [hlen]; norm_num)]
  have hi : c7_state.i_reg = 0x300 := rfl
  have hloop : Exec.st_regs_to_ram c7_state 0x300 (List.range 1)
      = .ok { c7_state with ram := c7_state.ram.set (0x300 + 0) 7 } := by
    have hr : List.range 1 = [0] := rfl
    rw [hr]
    simp only [Exec.st_regs_to_ram, hv0, hst]
  have hexec : Exec.execute (.LdIVx 0) 0 c7_state
      = .ok ({ c7_state with ram := c7_state.ram.set (0x300 + 0) 7 }, true) := by
    simp only [Exec.execute, Nat.zero_add, hi, hloop]
  have hfin : Cpu.fetch_exec default_cfg 0 c7_state
      = .ok { c7_state with ram := c7_state.ram.set (0x300 + 0) 7, pc := 0x202 } := by
    rw [hstep, hdec]
    simp only [hexec]
    rfl
  refine ⟨_, hfin, rfl, ?_, rfl⟩
  show (c7_state.ram.set (0x300 + 0) 7).getD 0x300 0 = 7
  have h0 : (0x300 + 0 : Nat) = 0x300 := rfl
  rw [h0]
  exact list_getD_set_self _ _ _ (by rw [hlen]; norm_num)

end ClaimC7

section ClaimC3

/-- Concrete input for C3: word `F00A` at `0x200`, no key held. -/
def c3_state : CHIP8 :=
  { chip8_new with ram := (chip8_new.ram.set 0x200 0xF0).set 0x201 0x0A }

/-- The same program with key `0x7` held. -/
def c3_key_state : CHIP8 :=
  { c3_state with keys := (List.replicate 16 false).set 7 true }

/-- C3: with no key available, one cycle of `F00A` is claimed to leave
`PC = 0x200`; the code decrements `PC` by 2 *and* suppresses the post-cycle
increment, ending at `0x1FE`.  With key `0x7` held, the key is stored in
`V0` and `PC` advances to `0x202` as claimed. -/
theorem c3_wait_for_key_rewinds_pc :
    (∃ t, Cpu.fetch_exec default_cfg 0 c3_state = .ok t ∧ t.pc = 0x1FE)
    ∧ (0x1FE : Nat) ≠ 0x200
    ∧ (∃ t, Cpu.fetch_exec default_cfg 0 c3_key_state = .ok t
        ∧ t.v_reg.getD 0 0 = 7 ∧ t.pc = 0x202) := by
  have hlen : c3_state.ram.length = 4096 := by
    show ((chip8_new.ram.set 0x200 0xF0).set 0x201 0x0A).length = 4096
    rw [List.length_set, List.length_set, chip8_new_ram_length]
  have h1 : c3_state.ram.getD c3_state.pc 0 = 0xF0 := by
    show ((chip8_new.ram.set 0x200 0xF0).set 0x201 0x0A).getD 0x200 0 = 0xF0
    rw [list_getD_set_ne _ _ _ (by norm_num)]
    exact list_getD_set_self _ _ _ (by rw [chip8_new_ram_length]; norm_num)
  have h2 : c3_state.ram.getD (c3_state.pc + 1) 0 = 0x0A := by
    show ((chip8_new.ram.set 0x200 0xF0).set 0x201 0x0A).getD 0x201 0 = 0x0A
    exact list_getD_set_self _ _ _
      (by rw [List.length_set, chip8_new_ram_length]; norm_num)
  have hdec : Cpu.decode default_cfg (0xF0 * 256 + 0x0A) = .ok (.LdVxK 0) := by rfl
  have hpc3 : c3_state.pc = 0x200 := rfl
  refine ⟨?_, by decide, ?_⟩
  · have hstep := fetch_exec_step default_cfg 0 c3_state 0xF0 0x0A
      (by rw [hlen, hpc3]; norm_num) h1 h2
    have hfin : Cpu.fetch_exec default_cfg 0 c3_state
        = .ok { c3_state with pc := 0x1FE } := by
      rw [hstep, hdec]
      rfl
    exact ⟨_, hfin, rfl⟩
  · have hlenk : c3_key_state.ram.length = 4096 := hlen
    have hpck : c3_key_state.pc = 0x200 := rfl
    have h1k : c3_key_state.ram.getD c3_key_state.pc 0 = 0xF0 := h1
    have h2k : c3_key_state.ram.getD (c3_key_state.pc + 1) 0 = 0x0A := h2
    have hstep := fetch_exec_step default_cfg 0 c3_key_state 0xF0 0x0A
      (by rw [hlenk, hpck]; norm_num) h1k h2k
    have hfin : Cpu.fetch_exec default_cfg 0 c3_key_state
        = .ok { c3_key_state with v_reg := c3_key_state.v_reg.set 0 7, pc := 0x202 } := by
      rw [hstep, hdec]
      rfl
    exact ⟨_, hfin, rfl, rfl⟩

end ClaimC3

section ClaimC1

/-- C1: after reset with the font loaded, `D015` at `V0 = V1 = 0`, `I = 0` is
claimed to light the glyph pixels, and a second identical draw to restore the
screen with `VF = 1` (collision).  Because `get_display` returns the
framebuffer by value, the XOR in the draw loop mutates a discarded copy: both
draws leave the display untouched (all dark) and set `VF = 0`. -/
theorem c1_draw_never_writes_display :
    (∃ s0 s1 b1 s2 b2,
      Emulator.init_ram [] chip8_new = .ok s0
      ∧ Exec.execute (.Drw 0 1 5) 0 s0 = .ok (s1, b1)
      ∧ Exec.execute (.Drw 0 1 5) 0 s1 = .ok (s2, b2)
      ∧ s1.display = s0.display
      ∧ s1.display = List.replicate (SCREEN_WIDTH * SCREEN_HEIGHT) false
      ∧ s1.v_reg.getD 15 0 = 0
      ∧ s2.display = s1.display
      ∧ s2.v_reg.getD 15 0 = 0)
    ∧ (0 : Nat) ≠ 1 := by
  refine ⟨?_, by decide⟩
  have hhex : HEX_DIGITS.length = 80 := by rfl
  have h0 : Emulator.init_ram [] chip8_new
      = .ok { chip8_new with ram := Emulator.write_bytes_at chip8_new.ram 0 HEX_DIGITS } := by
    have hlr : Emulator.load_rom_file [] chip8_new = .ok chip8_new := by
      unfold Emulator.load_rom_file
      rw [if_neg (by norm_num)]
    unfold Emulator.init_ram
    rw [hlr]
    show Emulator.load_hex_digits chip8_new = _
    unfold Emulator.load_hex_digits
    rw [if_neg (by rw [hhex, chip8_new_ram_length]; norm_num)]
  set s0 : CHIP8 :=
    { chip8_new with ram := Emulator.write_bytes_at chip8_new.ram 0 HEX_DIGITS } with hs0
  have hlen0 : s0.ram.length = 4096 := by
    show (Emulator.write_bytes_at chip8_new.ram 0 HEX_DIGITS).length = 4096
    rw [write_bytes_at_length, chip8_new_ram_length]
  have hd0 : s0.display = List.replicate (SCREEN_WIDTH * SCREEN_HEIGHT) false := rfl
  have hv00 : Emulator.get_v s0 0 = .ok 0 := by rfl
  have hv01 : Emulator.get_v s0 1 = .ok 0 := by rfl
  have hloop0 : Exec.drw_loop s0 0 0 (List.range 5) false = .ok false := by
    apply drw_loop_of_display_all_false s0 hd0
    intro o ho
    rw [hlen0]
    have : o < 5 := List.mem_range.mp ho
    show (s0.i_reg + o) % 65536 < 4096
    have hi0 : s0.i_reg = 0 := rfl
    rw [hi0]
    omega
  have hsv0 : Emulator.set_v s0 0xF 0 = .ok { s0 with v_reg := s0.v_reg.set 0xF 0 } := by rfl
  have hexec1 : Exec.execute (.Drw 0 1 5) 0 s0
      = .ok ({ s0 with v_reg := s0.v_reg.set 0xF 0 }, true) := by
    simp only [Exec.execute, hv00, hv01, hloop0, Bool.false_eq_true, if_false, hsv0]
  set s1 : CHIP8 := { s0 with v_reg := s0.v_reg.set 0xF 0 } with hs1
  have hd1 : s1.display = List.replicate (SCREEN_WIDTH * SCREEN_HEIGHT) false := rfl
  have hv10 : Emulator.get_v s1 0 = .ok 0 := by rfl
  have hv11 : Emulator.get_v s1 1 = .ok 0 := by rfl
  have hloop1 : Exec.drw_loop s1 0 0 (List.range 5) false = .ok false := by
    apply drw_loop_of_display_all_false s1 hd1
    intro o ho
    have hlen1 : s1.ram.length = 4096 := hlen0
    rw [hlen1]
    have : o < 5 := List.mem_range.mp ho
    show (s1.i_reg + o) % 65536 < 4096
    have hi1 : s1.i_reg = 0 := rfl
    rw [hi1]
    omega
  have hsv1 : Emulator.set_v s1 0xF 0 = .ok { s1 with v_reg := s1.v_reg.set 0xF 0 } := by rfl
  have hexec2 : Exec.execute (.Drw 0 1 5) 0 s1
      = .ok ({ s1 with v_reg := s1.v_reg.set 0xF 0 }, true) := by
    simp only [Exec.execute, hv10, hv11, hloop1, Bool.false_eq_true, if_false, hsv1]
  exact ⟨s0, s1, true, { s1 with v_reg := s1.v_reg.set 0xF 0 }, true,
    h0, hexec1, hexec2, rfl, rfl, by rfl, rfl, by rfl⟩

end ClaimC1

section ExecEquations

/-- `set_v` succeeds for indices up to 0xF. -/
theorem set_v_ok_le {s : CHIP8} {i v : Nat} (h : i ≤ 0xF) :
    Emulator.set_v s i v = .ok { s with v_reg := s.v_reg.set i v } := by
  unfold Emulator.set_v
  rw [if_neg (Nat.not_lt.mpr h)]

/-- Evaluation of 8XY4: the carry flag is written to `VF` first, the sum to
`VX` second. -/
theorem exec_add_eq (x y rnd : Nat) (s : CHIP8) (hx : x ≤ 0xF) (hy : y ≤ 0xF) :
    Exec.execute (.AddVxVy x y) rnd s
      = .ok ({ s with v_reg :=
          ((s.v_reg.set 0xF (if 255 < s.v_reg.getD x 0 + s.v_reg.getD y 0 then 1 else 0)).set x
            ((s.v_reg.getD x 0 + s.v_reg.getD y 0) % 256)) }, true) := by
  have h15 : (0xF : Nat) ≤ 0xF := Nat.le_refl _
  simp only [Exec.execute, get_v_ok hx, get_v_ok hy, set_v_ok_le h15, set_v_ok_le hx]

/-- Evaluation of 8XY5: the borrow flag is written to `VF` first, the
difference to `VX` second. -/
theorem exec_sub_eq (x y rnd : Nat) (s : CHIP8) (hx : x ≤ 0xF) (hy : y ≤ 0xF) :
    Exec.execute (.SubVxVy x y) rnd s
      = .ok ({ s with v_reg :=
          ((s.v_reg.set 0xF (if s.v_reg.getD x 0 < s.v_reg.getD y 0 then 0 else 1)).set x
            ((s.v_reg.getD x 0 + 256 - s.v_reg.getD y 0) % 256)) }, true) := by
  have h15 : (0xF : Nat) ≤ 0xF := Nat.le_refl _
  simp only [Exec.execute, get_v_ok hx, get_v_ok hy, set_v_ok_le h15, set_v_ok_le hx]

/-- Evaluation of 8XY6: the shifted-out bit is written to `VF` first, the
shifted value to `VX` second; the source is always `VX`. -/
theorem exec_shr_eq (x rnd : Nat) (s : CHIP8) (hx : x ≤ 0xF) :
    Exec.execute (.ShrVx x) rnd s
      = .ok ({ s with v_reg :=
          ((s.v_reg.set 0xF (s.v_reg.getD x 0 &&& 1)).set x (s.v_reg.getD x 0 >>> 1)) },
        true) := by
  have h15 : (0xF : Nat) ≤ 0xF := Nat.le_refl _
  simp only [Exec.execute, get_v_ok hx, set_v_ok_le h15, set_v_ok_le hx]

/-- Evaluation of 8XY7. -/
theorem exec_subn_eq (x y rnd : Nat) (s : CHIP8) (hx : x ≤ 0xF) (hy : y ≤ 0xF) :
    Exec.execute (.SubnVxVy x y) rnd s
      = .ok ({ s with v_reg :=
          ((s.v_reg.set 0xF (if s.v_reg.getD y 0 < s.v_reg.getD x 0 then 0 else 1)).set x
            ((s.v_reg.getD y 0 + 256 - s.v_reg.getD x 0) % 256)) }, true) := by
  have h15 : (0xF : Nat) ≤ 0xF := Nat.le_refl _
  simp only [Exec.execute, get_v_ok hx, get_v_ok hy, set_v_ok_le h15, set_v_ok_le hx]

/-- Evaluation of 8XYE. -/
theorem exec_shl_eq (x rnd : Nat) (s : CHIP8) (hx : x ≤ 0xF) :
    Exec.execute (.ShlVx x) rnd s
      = .ok ({ s with v_reg :=
          ((s.v_reg.set 0xF ((s.v_reg.getD x 0 &&& 128) >>> 7)).set x
            ((s.v_reg.getD x 0 * 2) % 256)) }, true) := by
  have h15 : (0xF : Nat) ≤ 0xF := Nat.le_refl _
  simp only [Exec.execute, get_v_ok hx, set_v_ok_le h15, set_v_ok_le hx]

/-- Evaluation of 8XY1. -/
theorem exec_or_eq (x y rnd : Nat) (s : CHIP8) (hx : x ≤ 0xF) (hy : y ≤ 0xF) :
    Exec.execute (.OrVxVy x y) rnd s
      = .ok ({ s with v_reg := s.v_reg.set x (s.v_reg.getD x 0 ||| s.v_reg.getD y 0) },
        true) := by
  simp only [Exec.execute, get_v_ok hx, get_v_ok hy, set_v_ok_le hx]

/-- Evaluation of 8XY2. -/
theorem exec_and_eq (x y rnd : Nat) (s : CHIP8) (hx : x ≤ 0xF) (hy : y ≤ 0xF) :
    Exec.execute (.AndVxVy x y) rnd s
      = .ok ({ s with v_reg := s.v_reg.set x (s.v_reg.getD x 0 &&& s.v_reg.getD y 0) },
        true) := by
  simp only [Exec.execute, get_v_ok hx, get_v_ok hy, set_v_ok_le hx]

/-- Evaluation of 8XY3. -/
theorem exec_xor_eq (x y rnd : Nat) (s : CHIP8) (hx : x ≤ 0xF) (hy : y ≤ 0xF) :
    Exec.execute (.XorVxVy x y) rnd s
      = .ok ({ s with v_reg := s.v_reg.set x (s.v_reg.getD x 0 ^^^ s.v_reg.getD y 0) },
        true) := by
  simp only [Exec.execute, get_v_ok hx, get_v_ok hy, set_v_ok_le hx]

end ExecEquations

section ClaimC5Amended

/-- C5 amended: in 8XY4/8XY5/8XY6/8XY7/8XYE the flag is written to `VF`
*before* the primary result is written to `VX`; hence when `X = 0xF` the
register `VF` ends holding the arithmetic result, the flag having been
overwritten. -/
theorem c5_amended_vf_gets_result (y rnd : Nat) (s : CHIP8)
    (hy : y ≤ 0xF) (hlen : s.v_reg.length = 16) :
    (∃ t, Exec.execute (.AddVxVy 15 y) rnd s = .ok (t, true)
       ∧ t.v_reg.getD 15 0 = (s.v_reg.getD 15 0 + s.v_reg.getD y 0) % 256)
    ∧ (∃ t, Exec.execute (.SubVxVy 15 y) rnd s = .ok (t, true)
       ∧ t.v_reg.getD 15 0 = (s.v_reg.getD 15 0 + 256 - s.v_reg.getD y 0) % 256)
    ∧ (∃ t, Exec.execute (.ShrVx 15) rnd s = .ok (t, true)
       ∧ t.v_reg.getD 15 0 = s.v_reg.getD 15 0 >>> 1)
    ∧ (∃ t, Exec.execute (.SubnVxVy 15 y) rnd s = .ok (t, true)
       ∧ t.v_reg.getD 15 0 = (s.v_reg.getD y 0 + 256 - s.v_reg.getD 15 0) % 256)
    ∧ (∃ t, Exec.execute (.ShlVx 15) rnd s = .ok (t, true)
       ∧ t.v_reg.getD 15 0 = (s.v_reg.getD 15 0 * 2) % 256) := by
  have h15 : (15 : Nat) ≤ 0xF := by norm_num
  have hget : ∀ (l : List Nat) (flag result : Nat), l.length = 16 →
      ((l.set 0xF flag).set 15 result).getD 15 0 = result := by
    intro l flag result hl
    exact list_getD_set_self _ _ _ (by rw [List.length_set, hl]; norm_num)
  refine ⟨⟨_, exec_add_eq 15 y rnd s h15 hy, hget _ _ _ hlen⟩,
    ⟨_, exec_sub_eq 15 y rnd s h15 hy, hget _ _ _ hlen⟩,
    ⟨_, exec_shr_eq 15 rnd s h15, hget _ _ _ hlen⟩,
    ⟨_, exec_subn_eq 15 y rnd s h15 hy, hget _ _ _ hlen⟩,
    ⟨_, exec_shl_eq 15 rnd s h15, hget _ _ _ hlen⟩⟩

/-- Witness for the amended C5 at `y = 0`, `rnd = 0`, and the concrete state
`c5_state` (`VF = 255`, other registers 0). -/
theorem c5_amended_vf_gets_result_witness :
    (∃ t, Exec.execute (.AddVxVy 15 0) 0 c5_state = .ok (t, true)
       ∧ t.v_reg.getD 15 0 = (c5_state.v_reg.getD 15 0 + c5_state.v_reg.getD 0 0) % 256)
    ∧ (∃ t, Exec.execute (.SubVxVy 15 0) 0 c5_state = .ok (t, true)
       ∧ t.v_reg.getD 15 0
          = (c5_state.v_reg.getD 15 0 + 256 - c5_state.v_reg.getD 0 0) % 256)
    ∧ (∃ t, Exec.execute (.ShrVx 15) 0 c5_state = .ok (t, true)
       ∧ t.v_reg.getD 15 0 = c5_state.v_reg.getD 15 0 >>> 1)
    ∧ (∃ t, Exec.execute (.SubnVxVy 15 0) 0 c5_state = .ok (t, true)
       ∧ t.v_reg.getD 15 0
          = (c5_state.v_reg.getD 0 0 + 256 - c5_state.v_reg.getD 15 0) % 256)
    ∧ (∃ t, Exec.execute (.ShlVx 15) 0 c5_state = .ok (t, true)
       ∧ t.v_reg.getD 15 0 = (c5_state.v_reg.getD 15 0 * 2) % 256) :=
  c5_amended_vf_gets_result 0 0 c5_state (by norm_num) (by rfl)

end ClaimC5Amended

section ClaimC10

/-- C10: 8XY1, 8XY2 and 8XY3 write only `VX`: for `X ≠ 0xF` the register
`VF` keeps its value, every other register keeps its value, and RAM, stack,
timers, `I`, `PC`, `SP`, display and keypad are untouched. -/
theorem c10_logic_ops_leave_vf (x y rnd : Nat) (s : CHIP8)
    (hx : x ≤ 0xF) (hy : y ≤ 0xF) (hxF : x ≠ 15) :
    (∃ t, Exec.execute (.OrVxVy x y) rnd s = .ok (t, true)
       ∧ t.v_reg.getD 15 0 = s.v_reg.getD 15 0
       ∧ (∀ j, j ≠ x → t.v_reg.getD j 0 = s.v_reg.getD j 0)
       ∧ t.i_reg = s.i_reg ∧ t.pc = s.pc ∧ t.sp = s.sp ∧ t.dt = s.dt ∧ t.st = s.st
       ∧ t.ram = s.ram ∧ t.stack = s.stack ∧ t.display = s.display ∧ t.keys = s.keys)
    ∧ (∃ t, Exec.execute (.AndVxVy x y) rnd s = .ok (t, true)
       ∧ t.v_reg.getD 15 0 = s.v_reg.getD 15 0
       ∧ (∀ j, j ≠ x → t.v_reg.getD j 0 = s.v_reg.getD j 0)
       ∧ t.i_reg = s.i_reg ∧ t.pc = s.pc ∧ t.sp = s.sp ∧ t.dt = s.dt ∧ t.st = s.st
       ∧ t.ram = s.ram ∧ t.stack = s.stack ∧ t.display = s.display ∧ t.keys = s.keys)
    ∧ (∃ t, Exec.execute (.XorVxVy x y) rnd s = .ok (t, true)
       ∧ t.v_reg.getD 15 0 = s.v_reg.getD 15 0
       ∧ (∀ j, j ≠ x → t.v_reg.getD j 0 = s.v_reg.getD j 0)
       ∧ t.i_reg = s.i_reg ∧ t.pc = s.pc ∧ t.sp = s.sp ∧ t.dt = s.dt ∧ t.st = s.st
       ∧ t.ram = s.ram ∧ t.stack = s.stack ∧ t.display = s.display ∧ t.keys = s.keys) := by
  refine ⟨⟨_, exec_or_eq x y rnd s hx hy, ?_⟩, ⟨_, exec_and_eq x y rnd s hx hy, ?_⟩,
    ⟨_, exec_xor_eq x y rnd s hx hy, ?_⟩⟩
  all_goals
    exact ⟨list_getD_set_ne _ _ _ (fun h => hxF h),
      fun j hj => list_getD_set_ne _ _ _ (fun h => hj h.symm),
      rfl, rfl, rfl, rfl, rfl, rfl, rfl, rfl, rfl⟩

/-- Witness for C10 at `x = 0`, `y = 1`, the reset state. -/
theorem c10_logic_ops_leave_vf_witness :
    (∃ t, Exec.execute (.OrVxVy 0 1) 0 chip8_new = .ok (t, true)
       ∧ t.v_reg.getD 15 0 = chip8_new.v_reg.getD 15 0
       ∧ (∀ j, j ≠ 0 → t.v_reg.getD j 0 = chip8_new.v_reg.getD j 0)
       ∧ t.i_reg = chip8_new.i_reg ∧ t.pc = chip8_new.pc ∧ t.sp = chip8_new.sp
       ∧ t.dt = chip8_new.dt ∧ t.st = chip8_new.st ∧ t.ram = chip8_new.ram
       ∧ t.stack = chip8_new.stack ∧ t.display = chip8_new.display
       ∧ t.keys = chip8_new.keys)
    ∧ (∃ t, Exec.execute (.AndVxVy 0 1) 0 chip8_new = .ok (t, true)
       ∧ t.v_reg.getD 15 0 = chip8_new.v_reg.getD 15 0
       ∧ (∀ j, j ≠ 0 → t.v_reg.getD j 0 = chip8_new.v_reg.getD j 0)
       ∧ t.i_reg = chip8_new.i_reg ∧ t.pc = chip8_new.pc ∧ t.sp = chip8_new.sp
       ∧ t.dt = chip8_new.dt ∧ t.st = chip8_new.st ∧ t.ram = chip8_new.ram
       ∧ t.stack = chip8_new.stack ∧ t.display = chip8_new.display
       ∧ t.keys = chip8_new.keys)
    ∧ (∃ t, Exec.execute (.XorVxVy 0 1) 0 chip8_new = .ok (t, true)
       ∧ t.v_reg.getD 15 0 = chip8_new.v_reg.getD 15 0
       ∧ (∀ j, j ≠ 0 → t.v_reg.getD j 0 = chip8_new.v_reg.getD j 0)
       ∧ t.i_reg = chip8_new.i_reg ∧ t.pc = chip8_new.pc ∧ t.sp = chip8_new.sp
       ∧ t.dt = chip8_new.dt ∧ t.st = chip8_new.st ∧ t.ram = chip8_new.ram
       ∧ t.stack = chip8_new.stack ∧ t.display = chip8_new.display
       ∧ t.keys = chip8_new.keys) :=
  c10_logic_ops_leave_vf 0 1 0 chip8_new (by norm_num) (by norm_num) (by norm_num)

end ClaimC10

section ClaimC4

/-- C4: from any state with `SP < 16`, executing `CALL NNN` and then `RET`
succeeds, returns `PC` to the instruction after the call (`A + 2`), and
restores `SP`. -/
theorem c4_call_ret_round_trip (s : CHIP8) (nnn rnd rnd' : Nat)
    (hsp : s.sp < 16) (hlen : s.stack.length = 16) (hpc : s.pc + 2 < 65536) :
    ∃ s1 s2,
      Cpu.run_cycle (.Call nnn) rnd s = .ok s1
      ∧ Cpu.run_cycle .Ret rnd' s1 = .ok s2
      ∧ s2.pc = s.pc + 2 ∧ s2.sp = s.sp := by
  have hpush : Emulator.stack_push s s.pc
      = .ok { s with sp := s.sp + 1, stack := s.stack.set s.sp s.pc, pc := s.pc } := by
    unfold Emulator.stack_push
    rw [if_neg (by rw [hlen]; omega)]
  have hcall : Cpu.run_cycle (.Call nnn) rnd s
      = .ok { s with sp := s.sp + 1, stack := s.stack.set s.sp s.pc, pc := nnn } := by
    unfold Cpu.run_cycle
    simp only [Exec.execute, hpush]
    rfl
  set s1 : CHIP8 :=
    { s with sp := s.sp + 1, stack := s.stack.set s.sp s.pc, pc := nnn } with hs1
  have hpop : Emulator.stack_pop s1
      = .ok { s1 with pc := s.pc, stack := s1.stack.set s.sp 0, sp := s.sp } := by
    unfold Emulator.stack_pop
    rw [if_neg (by simp [hs1])]
    have hget : s1.stack.getD (s1.sp - 1) 0 = s.pc := by
      show (s.stack.set s.sp s.pc).getD (s.sp + 1 - 1) 0 = s.pc
      rw [Nat.add_sub_cancel]
      exact list_getD_set_self _ _ _ (by rw [hlen]; omega)
    rw [hget]
    have hsp1 : s1.sp - 1 = s.sp := by show s.sp + 1 - 1 = s.sp; omega
    rw [hsp1]
  have hret : Cpu.run_cycle .Ret rnd' s1
      = .ok { s1 with pc := (s.pc + 2) % 65536, stack := s1.stack.set s.sp 0,
                      sp := s.sp } := by
    unfold Cpu.run_cycle
    simp only [Exec.execute, hpop]
    rfl
  refine ⟨s1, _, hcall, hret, ?_, rfl⟩
  show (s.pc + 2) % 65536 = s.pc + 2
  exact Nat.mod_eq_of_lt hpc

/-- Witness for C4 at the reset state with `NNN = 0x206`. -/
theorem c4_call_ret_round_trip_witness :
    ∃ s1 s2,
      Cpu.run_cycle (.Call 0x206) 0 chip8_new = .ok s1
      ∧ Cpu.run_cycle .Ret 0 s1 = .ok s2
      ∧ s2.pc = chip8_new.pc + 2 ∧ s2.sp = chip8_new.sp :=
  c4_call_ret_round_trip chip8_new 0x206 0 0 (by norm_num [chip8_new])
    (by rw [show chip8_new.stack = List.replicate STACK_SIZE 0 from rfl]; simp [STACK_SIZE])
    (by norm_num [chip8_new, START_ADDR])

end ClaimC4

section SpFrame

/-- `dec_pc_by` only rewrites `pc`. -/
theorem dec_pc_by_sp_stack (s : CHIP8) (v : Nat) :
    (Emulator.dec_pc_by s v).sp = s.sp ∧ (Emulator.dec_pc_by s v).stack = s.stack := by
  unfold Emulator.dec_pc_by
  split <;> exact ⟨rfl, rfl⟩

/-- A successful `stack_pop` came from a positive `SP` and decrements it. -/
theorem stack_pop_shape {s t : CHIP8} (h : Emulator.stack_pop s = .ok t) :
    0 < s.sp ∧ t.sp = s.sp - 1 ∧ t.stack.length = s.stack.length := by
  unfold Emulator.stack_pop at h
  by_cases hz : s.sp = 0
  · rw [if_pos hz] at h
    cases h
  · rw [if_neg hz] at h
    cases Except.ok.inj h
    exact ⟨Nat.pos_of_ne_zero hz, rfl, by simp⟩

/-- A successful `stack_push` came from `SP` below the stack capacity and
increments it. -/
theorem stack_push_shape {s t : CHIP8} {new : Nat}
    (h : Emulator.stack_push s new = .ok t) :
    s.sp < s.stack.length ∧ t.sp = s.sp + 1 ∧ t.stack.length = s.stack.length := by
  unfold Emulator.stack_push at h
  by_cases hz : s.sp ≥ s.stack.length
  · rw [if_pos hz] at h
    cases h
  · rw [if_neg hz] at h
    cases Except.ok.inj h
    exact ⟨by omega, rfl, by simp⟩

/-- The FX55 store loop never touches `SP` or the stack. -/
theorem st_regs_frame (idxs : List Nat) : ∀ (s : CHIP8) (i : Nat) (t : CHIP8),
    Exec.st_regs_to_ram s i idxs = .ok t → t.sp = s.sp ∧ t.stack = s.stack := by
  induction idxs with
  | nil =>
    intro s i t h
    cases Except.ok.inj h
    exact ⟨rfl, rfl⟩
  | cons k rest ih =>
    intro s i t h
    simp only [Exec.st_regs_to_ram] at h
    cases hg : Emulator.get_v s k with
    | error e => simp [hg] at h
    | ok v =>
      simp only [hg] at h
      cases hw : Emulator.set_to_ram s (i + k) v with
      | error e => simp [hw] at h
      | ok u =>
        simp only [hw] at h
        obtain ⟨h1, h2⟩ := ih u i t h
        obtain ⟨-, hst, -, hsp, -, -, -, -, -, -⟩ := set_to_ram_frame hw
        exact ⟨h1.trans hsp, h2.trans hst⟩

/-- The FX65 load loop never touches `SP` or the stack. -/
theorem ld_regs_frame (idxs : List Nat) : ∀ (s : CHIP8) (i : Nat) (t : CHIP8),
    Exec.ld_regs_from_ram s i idxs = .ok t → t.sp = s.sp ∧ t.stack = s.stack := by
  induction idxs with
  | nil =>
    intro s i t h
    cases Except.ok.inj h
    exact ⟨rfl, rfl⟩
  | cons k rest ih =>
    intro s i t h
    simp only [Exec.ld_regs_from_ram] at h
    cases hg : Emulator.ram_read s (i + k) with
    | error e => simp [hg] at h
    | ok v =>
      simp only [hg] at h
      cases hw : Emulator.set_v s k v with
      | error e => simp [hw] at h
      | ok u =>
        simp only [hw] at h
        obtain ⟨h1, h2⟩ := ih u i t h
        obtain ⟨-, hst, -, hsp, -, -, -, -, -, -⟩ := set_v_frame hw
        exact ⟨h1.trans hsp, h2.trans hst⟩

end SpFrame

section ClaimC9Machinery

/-- How one `Instruction::execute` step can change `SP` and the stack:
`Call` pushes (from `SP` strictly below capacity), `Ret` pops (from a
positive `SP`), and every other instruction leaves both untouched. -/
theorem execute_sp_shape (ins : Instruction) (rnd : Nat) (s t : CHIP8) (b : Bool)
    (h : Exec.execute ins rnd s = .ok (t, b)) :
    ((∃ a, ins = .Call a) ∧ t.sp = s.sp + 1 ∧ s.sp < s.stack.length
        ∧ t.stack.length = s.stack.length)
    ∨ (ins = .Ret ∧ 0 < s.sp ∧ t.sp = s.sp - 1 ∧ t.stack.length = s.stack.length)
    ∨ (t.sp = s.sp ∧ t.stack = s.stack) := by
  cases ins
  case Call addr =>
    simp only [Exec.execute] at h
    cases hp : Emulator.stack_push s s.pc with
    | error e => simp [hp] at h
    | ok u =>
      simp only [hp] at h
      cases Except.ok.inj h
      obtain ⟨hlt, hsp, hln⟩ := stack_push_shape hp
      exact Or.inl ⟨⟨addr, rfl⟩, hsp, hlt, hln⟩
  case Ret =>
    simp only [Exec.execute] at h
    cases hp : Emulator.stack_pop s with
    | error e => simp [hp] at h
    | ok u =>
      simp only [hp] at h
      cases Except.ok.inj h
      obtain ⟨hpos, hsp, hln⟩ := stack_pop_shape hp
      exact Or.inr (Or.inl ⟨rfl, hpos, hsp, hln⟩)
  case Nop =>
    refine Or.inr (Or.inr ?_)
    simp only [Exec.execute] at h
    cases Except.ok.inj h
    exact ⟨rfl, rfl⟩
  case Cls =>
    refine Or.inr (Or.inr ?_)
    simp only [Exec.execute] at h
    cases Except.ok.inj h
    exact ⟨rfl, rfl⟩
  case Jmp addr =>
    refine Or.inr (Or.inr ?_)
    simp only [Exec.execute] at h
    cases Except.ok.inj h
    exact ⟨rfl, rfl⟩
  case LdI addr =>
    refine Or.inr (Or.inr ?_)
    simp only [Exec.execute] at h
    cases Except.ok.inj h
    exact ⟨rfl, rfl⟩
  case SeVx x byte =>
    refine Or.inr (Or.inr ?_)
    simp only [Exec.execute] at h
    cases hg : Emulator.get_v s x with
    | error e => simp [hg] at h
    | ok v =>
      simp only [hg] at h
      split at h <;> (cases Except.ok.inj h; exact ⟨rfl, rfl⟩)
  case SneVx x byte =>
    refine Or.inr (Or.inr ?_)
    simp only [Exec.execute] at h
    cases hg : Emulator.get_v s x with
    | error e => simp [hg] at h
    | ok v =>
      simp only [hg] at h
      split at h <;> (cases Except.ok.inj h; exact ⟨rfl, rfl⟩)
  case SeVxVy x y =>
    refine Or.inr (Or.inr ?_)
    simp only [Exec.execute] at h
    cases hg : Emulator.get_v s x with
    | error e => simp [hg] at h
    | ok vx =>
      simp only [hg] at h
      cases hg2 : Emulator.get_v s y with
      | error e => simp [hg2] at h
      | ok vy =>
        simp only [hg2] at h
        split at h <;> (cases Except.ok.inj h; exact ⟨rfl, rfl⟩)
  case SneVxVy x y =>
    refine Or.inr (Or.inr ?_)
    simp only [Exec.execute] at h
    cases hg : Emulator.get_v s x with
    | error e => simp [hg] at h
    | ok vx =>
      simp only [hg] at h
      cases hg2 : Emulator.get_v s y with
      | error e => simp [hg2] at h
      | ok vy =>
        simp only [hg2] at h
        split at h <;> (cases Except.ok.inj h; exact ⟨rfl, rfl⟩)
  case LdVx x byte =>
    refine Or.inr (Or.inr ?_)
    simp only [Exec.execute] at h
    cases hs1 : Emulator.set_v s x byte with
    | error e => simp [hs1] at h
    | ok u =>
      simp only [hs1] at h
      cases Except.ok.inj h
      obtain ⟨-, hst, -, hsp, -, -, -, -, -, -⟩ := set_v_frame hs1
      exact ⟨hsp, hst⟩
  case Rnd x byte =>
    refine Or.inr (Or.inr ?_)
    simp only [Exec.execute] at h
    cases hs1 : Emulator.set_v s x ((rnd % 256) &&& byte) with
    | error e => simp [hs1] at h
    | ok u =>
      simp only [hs1] at h
      cases Except.ok.inj h
      obtain ⟨-, hst, -, hsp, -, -, -, -, -, -⟩ := set_v_frame hs1
      exact ⟨hsp, hst⟩
  case LdVxDt x =>
    refine Or.inr (Or.inr ?_)
    simp only [Exec.execute] at h
    cases hs1 : Emulator.set_v s x s.dt with
    | error e => simp [hs1] at h
    | ok u =>
      simp only [hs1] at h
      cases Except.ok.inj h
      obtain ⟨-, hst, -, hsp, -, -, -, -, -, -⟩ := set_v_frame hs1
      exact ⟨hsp, hst⟩
  case AddVx x byte =>
    refine Or.inr (Or.inr ?_)
    simp only [Exec.execute] at h
    cases hg : Emulator.get_v s x with
    | error e => simp [hg] at h
    | ok v =>
      simp only [hg] at h
      cases hs1 : Emulator.set_v s x ((v + byte) % 256) with
      | error e => simp [hs1] at h
      | ok u =>
        simp only [hs1] at h
        cases Except.ok.inj h
        obtain ⟨-, hst, -, hsp, -, -, -, -, -, -⟩ := set_v_frame hs1
        exact ⟨hsp, hst⟩
  case LdVxVy x y =>
    refine Or.inr (Or.inr ?_)
    simp only [Exec.execute] at h
    cases hg : Emulator.get_v s y with
    | error e => simp [hg] at h
    | ok v =>
      simp only [hg] at h
      cases hs1 : Emulator.set_v s x v with
      | error e => simp [hs1] at h
      | ok u =>
        simp only [hs1] at h
        cases Except.ok.inj h
        obtain ⟨-, hst, -, hsp, -, -, -, -, -, -⟩ := set_v_frame hs1
        exact ⟨hsp, hst⟩
  case JpV0 addr =>
    refine Or.inr (Or.inr ?_)
    simp only [Exec.execute] at h
    cases hg : Emulator.get_v s 0 with
    | error e => simp [hg] at h
    | ok v =>
      simp only [hg] at h
      cases Except.ok.inj h
      exact ⟨rfl, rfl⟩
  case LdDtVx x =>
    refine Or.inr (Or.inr ?_)
    simp only [Exec.execute] at h
    cases hg : Emulator.get_v s x with
    | error e => simp [hg] at h
    | ok v =>
      simp only [hg] at h
      cases Except.ok.inj h
      exact ⟨rfl, rfl⟩
  case LdStVx x =>
    refine Or.inr (Or.inr ?_)
    simp only [Exec.execute] at h
    cases hg : Emulator.get_v s x with
    | error e => simp [hg] at h
    | ok v =>
      simp only [hg] at h
      cases Except.ok.inj h
      exact ⟨rfl, rfl⟩
  case AddIVx x =>
    refine Or.inr (Or.inr ?_)
    simp only [Exec.execute] at h
    cases hg : Emulator.get_v s x with
    | error e => simp [hg] at h
    | ok v =>
      simp only [hg] at h
      cases Except.ok.inj h
      exact ⟨rfl, rfl⟩
  case LdFVx x =>
    refine Or.inr (Or.inr ?_)
    simp only [Exec.execute] at h
    cases hg : Emulator.get_v s x with
    | error e => simp [hg] at h
    | ok v =>
      simp only [hg] at h
      cases Except.ok.inj h
      exact ⟨rfl, rfl⟩
  case OrVxVy x y =>
    refine Or.inr (Or.inr ?_)
    simp only [Exec.execute] at h
    cases hg : Emulator.get_v s x with
    | error e => simp [hg] at h
    | ok vx =>
      simp only [hg] at h
      cases hg2 : Emulator.get_v s y with
      | error e => simp [hg2] at h
      | ok vy =>
        simp only [hg2] at h
        cases hs1 : Emulator.set_v s x (vx ||| vy) with
        | error e => simp [hs1] at h
        | ok u =>
          simp only [hs1] at h
          cases Except.ok.inj h
          obtain ⟨-, hst, -, hsp, -, -, -, -, -, -⟩ := set_v_frame hs1
          exact ⟨hsp, hst⟩
  case AndVxVy x y =>
    refine Or.inr (Or.inr ?_)
    simp only [Exec.execute] at h
    cases hg : Emulator.get_v s x with
    | error e => simp [hg] at h
    | ok vx =>
      simp only [hg] at h
      cases hg2 : Emulator.get_v s y with
      | error e => simp [hg2] at h
      | ok vy =>
        simp only [hg2] at h
        cases hs1 : Emulator.set_v s x (vx &&& vy) with
        | error e => simp [hs1] at h
        | ok u =>
          simp only [hs1] at h
          cases Except.ok.inj h
          obtain ⟨-, hst, -, hsp, -, -, -, -, -, -⟩ := set_v_frame hs1
          exact ⟨hsp, hst⟩
  case XorVxVy x y =>
    refine Or.inr (Or.inr ?_)
    simp only [Exec.execute] at h
    cases hg : Emulator.get_v s x with
    | error e => simp [hg] at h
    | ok vx =>
      simp only [hg] at h
      cases hg2 : Emulator.get_v s y with
      | error e => simp [hg2] at h
      | ok vy =>
        simp only [hg2] at h
        cases hs1 : Emulator.set_v s x (vx ^^^ vy) with
        | error e => simp [hs1] at h
        | ok u =>
          simp only [hs1] at h
          cases Except.ok.inj h
          obtain ⟨-, hst, -, hsp, -, -, -, -, -, -⟩ := set_v_frame hs1
          exact ⟨hsp, hst⟩
  case AddVxVy x y =>
    refine Or.inr (Or.inr ?_)
    simp only [Exec.execute] at h
    cases hg : Emulator.get_v s x with
    | error e => simp [hg] at h
    | ok vx =>
      simp only [hg] at h
      cases hg2 : Emulator.get_v s y with
      | error e => simp [hg2] at h
      | ok vy =>
        simp only [hg2] at h
        cases hs1 : Emulator.set_v s 0xF (if 255 < vx + vy then 1 else 0) with
        | error e => simp [hs1] at h
        | ok u =>
          simp only [hs1] at h
          cases hs2 : Emulator.set_v u x ((vx + vy) % 256) with
          | error e => simp [hs2] at h
          | ok w =>
            simp only [hs2] at h
            cases Except.ok.inj h
            obtain ⟨-, hst1, -, hsp1, -, -, -, -, -, -⟩ := set_v_frame hs1
            obtain ⟨-, hst2, -, hsp2, -, -, -, -, -, -⟩ := set_v_frame hs2
            exact ⟨hsp2.trans hsp1, hst2.trans hst1⟩
  case SubVxVy x y =>
    refine Or.inr (Or.inr ?_)
    simp only [Exec.execute] at h
    cases hg : Emulator.get_v s x with
    | error e => simp [hg] at h
    | ok vx =>
      simp only [hg] at h
      cases hg2 : Emulator.get_v s y with
      | error e => simp [hg2] at h
      | ok vy =>
        simp only [hg2] at h
        cases hs1 : Emulator.set_v s 0xF (if vx < vy then 0 else 1) with
        | error e => simp [hs1] at h
        | ok u =>
          simp only [hs1] at h
          cases hs2 : Emulator.set_v u x ((vx + 256 - vy) % 256) with
          | error e => simp [hs2] at h
          | ok w =>
            simp only [hs2] at h
            cases Except.ok.inj h
            obtain ⟨-, hst1, -, hsp1, -, -, -, -, -, -⟩ := set_v_frame hs1
            obtain ⟨-, hst2, -, hsp2, -, -, -, -, -, -⟩ := set_v_frame hs2
            exact ⟨hsp2.trans hsp1, hst2.trans hst1⟩
  case SubnVxVy x y =>
    refine Or.inr (Or.inr ?_)
    simp only [Exec.execute] at h
    cases hg : Emulator.get_v s x with
    | error e => simp [hg] at h
    | ok vx =>
      simp only [hg] at h
      cases hg2 : Emulator.get_v s y with
      | error e => simp [hg2] at h
      | ok vy =>
        simp only [hg2] at h
        cases hs1 : Emulator.set_v s 0xF (if vy < vx then 0 else 1) with
        | error e => simp [hs1] at h
        | ok u =>
          simp only [hs1] at h
          cases hs2 : Emulator.set_v u x ((vy + 256 - vx) % 256) with
          | error e => simp [hs2] at h
          | ok w =>
            simp only [hs2] at h
            cases Except.ok.inj h
            obtain ⟨-, hst1, -, hsp1, -, -, -, -, -, -⟩ := set_v_frame hs1
            obtain ⟨-, hst2, -, hsp2, -, -, -, -, -, -⟩ := set_v_frame hs2
            exact ⟨hsp2.trans hsp1, hst2.trans hst1⟩
  case ShrVx x =>
    refine Or.inr (Or.inr ?_)
    simp only [Exec.execute] at h
    cases hg : Emulator.get_v s x with
    | error e => simp [hg] at h
    | ok vx =>
      simp only [hg] at h
      split at h
      · cases h
      · rename_i u hs1
        split at h
        · cases h
        · rename_i w hs2
          cases Except.ok.inj h
          obtain ⟨-, hst1, -, hsp1, -, -, -, -, -, -⟩ := set_v_frame hs1
          obtain ⟨-, hst2, -, hsp2, -, -, -, -, -, -⟩ := set_v_frame hs2
          exact ⟨hsp2.trans hsp1, hst2.trans hst1⟩
  case ShlVx x =>
    refine Or.inr (Or.inr ?_)
    simp only [Exec.execute] at h
    cases hg : Emulator.get_v s x with
    | error e => simp [hg] at h
    | ok vx =>
      simp only [hg] at h
      cases hs1 : Emulator.set_v s 0xF ((vx &&& 128) >>> 7) with
      | error e => simp [hs1] at h
      | ok u =>
        simp only [hs1] at h
        cases hs2 : Emulator.set_v u x ((vx * 2) % 256) with
        | error e => simp [hs2] at h
        | ok w =>
          simp only [hs2] at h
          cases Except.ok.inj h
          obtain ⟨-, hst1, -, hsp1, -, -, -, -, -, -⟩ := set_v_frame hs1
          obtain ⟨-, hst2, -, hsp2, -, -, -, -, -, -⟩ := set_v_frame hs2
          exact ⟨hsp2.trans hsp1, hst2.trans hst1⟩
  case Drw x y nibble =>
    refine Or.inr (Or.inr ?_)
    simp only [Exec.execute] at h
    cases hg : Emulator.get_v s x with
    | error e => simp [hg] at h
    | ok vx =>
      simp only [hg] at h
      cases hg2 : Emulator.get_v s y with
      | error e => simp [hg2] at h
      | ok vy =>
        simp only [hg2] at h
        cases hl : Exec.drw_loop s vx vy (List.range nibble) false with
        | error e => simp [hl] at h
        | ok coll =>
          simp only [hl] at h
          cases hs1 : Emulator.set_v s 0xF (if coll then 1 else 0) with
          | error e => simp [hs1] at h
          | ok u =>
            simp only [hs1] at h
            cases Except.ok.inj h
            obtain ⟨-, hst, -, hsp, -, -, -, -, -, -⟩ := set_v_frame hs1
            exact ⟨hsp, hst⟩
  case SkpVx x =>
    refine Or.inr (Or.inr ?_)
    simp only [Exec.execute] at h
    cases hg : Emulator.get_v s x with
    | error e => simp [hg] at h
    | ok vx =>
      simp only [hg] at h
      cases hk : Emulator.is_key_pressed s vx with
      | error e => simp [hk] at h
      | ok pressed =>
        simp only [hk] at h
        split at h <;> (cases Except.ok.inj h; exact ⟨rfl, rfl⟩)
  case SknpVx x =>
    refine Or.inr (Or.inr ?_)
    simp only [Exec.execute] at h
    cases hg : Emulator.get_v s x with
    | error e => simp [hg] at h
    | ok vx =>
      simp only [hg] at h
      cases hk : Emulator.is_key_pressed s vx with
      | error e => simp [hk] at h
      | ok pressed =>
        simp only [hk] at h
        split at h <;> (cases Except.ok.inj h; exact ⟨rfl, rfl⟩)
  case LdVxK x =>
    refine Or.inr (Or.inr ?_)
    simp only [Exec.execute] at h
    cases hk : Emulator.check_key_press s with
    | some key =>
      simp only [hk] at h
      cases hs1 : Emulator.set_v s x key with
      | error e => simp [hs1] at h
      | ok u =>
        simp only [hs1] at h
        cases Except.ok.inj h
        obtain ⟨-, hst, -, hsp, -, -, -, -, -, -⟩ := set_v_frame hs1
        exact ⟨hsp, hst⟩
    | none =>
      simp only [hk] at h
      cases Except.ok.inj h
      exact dec_pc_by_sp_stack s 2
  case LdBVx x =>
    refine Or.inr (Or.inr ?_)
    simp only [Exec.execute] at h
    cases hg : Emulator.get_v s x with
    | error e => simp [hg] at h
    | ok vx =>
      simp only [hg] at h
      cases hw1 : Emulator.set_to_ram s s.i_reg (vx / 100) with
      | error e => simp [hw1] at h
      | ok u =>
        simp only [hw1] at h
        cases hw2 : Emulator.set_to_ram u (u.i_reg + 1) ((vx / 10) % 10) with
        | error e => simp [hw2] at h
        | ok w =>
          simp only [hw2] at h
          cases hw3 : Emulator.set_to_ram w (w.i_reg + 2) (vx % 10) with
          | error e => simp [hw3] at h
          | ok z =>
            simp only [hw3] at h
            cases Except.ok.inj h
            obtain ⟨-, hst1, -, hsp1, -, -, -, -, -, -⟩ := set_to_ram_frame hw1
            obtain ⟨-, hst2, -, hsp2, -, -, -, -, -, -⟩ := set_to_ram_frame hw2
            obtain ⟨-, hst3, -, hsp3, -, -, -, -, -, -⟩ := set_to_ram_frame hw3
            exact ⟨(hsp3.trans hsp2).trans hsp1, (hst3.trans hst2).trans hst1⟩
  case LdIVx x =>
    refine Or.inr (Or.inr ?_)
    simp only [Exec.execute] at h
    cases hl : Exec.st_regs_to_ram s s.i_reg (List.range (x + 1)) with
    | error e => simp [hl] at h
    | ok u =>
      simp only [hl] at h
      cases Except.ok.inj h
      exact st_regs_frame _ _ _ _ hl
  case LdVxI x =>
    refine Or.inr (Or.inr ?_)
    simp only [Exec.execute] at h
    cases hl : Exec.ld_regs_from_ram s s.i_reg (List.range (x + 1)) with
    | error e => simp [hl] at h
    | ok u =>
      simp only [hl] at h
      cases Except.ok.inj h
      exact ld_regs_frame _ _ _ _ hl

end ClaimC9Machinery

section ClaimC9

/-- One whole machine cycle keeps the stack 16 entries long and `SP ≤ 16`. -/
theorem fetch_exec_wf {cfg : CpuConfig} {rnd : Nat} {s s' : CHIP8}
    (h : Cpu.fetch_exec cfg rnd s = .ok s')
    (hlen : s.stack.length = 16) (hsp : s.sp ≤ 16) :
    s'.stack.length = 16 ∧ s'.sp ≤ 16 := by
  unfold Cpu.fetch_exec at h
  split at h
  · cases h
  · split at h
    · cases h
    · rename_i ins hdec
      split at h
      · cases h
      · rename_i t b hexec
        cases Except.ok.inj h
        have hts : t.stack.length = 16 ∧ t.sp ≤ 16 := by
          rcases execute_sp_shape ins rnd s t b hexec with
            ⟨-, h1, h2, h3⟩ | ⟨-, h1, h2, h3⟩ | ⟨h1, h2⟩
          · exact ⟨by omega, by omega⟩
          · exact ⟨by omega, by omega⟩
          · exact ⟨by rw [h2, hlen], by omega⟩
        by_cases hf : Cpu.dispatch_flag (Cpu.fetch_word s) b = true
        · rw [if_pos hf]
          exact hts
        · rw [if_neg hf]
          exact hts

/-- Every reachable state has a 16-entry stack and `SP ≤ 16`. -/
theorem reachable_wf (s : CHIP8) (h : Cpu.Reachable s) :
    s.stack.length = 16 ∧ s.sp ≤ 16 := by
  induction h with
  | reset =>
    constructor
    · show (List.replicate STACK_SIZE 0).length = 16
      rw [List.length_replicate]
      rfl
    · exact Nat.zero_le _
  | step cfg rnd hr hstep ih => exact fetch_exec_wf hstep ih.1 ih.2

/-- A state with the stack pointer saturated at 16. -/
def sp16_state : CHIP8 := { chip8_new with sp := 16 }

/-- C9: every state reachable from reset satisfies `SP ≤ 16`; `CALL` fails
with a stack overflow exactly at `SP = 16`, `RET` fails with a stack
underflow at `SP = 0`, and every instruction other than `CALL` and `RET`
leaves `SP` unchanged. -/
theorem c9_stack_pointer_invariant :
    (∀ s, Cpu.Reachable s → s.sp ≤ 16)
    ∧ (∀ s nnn rnd, s.sp = 16 → s.stack.length = 16 →
        Exec.execute (.Call nnn) rnd s = .error .stackOverflow)
    ∧ (∀ s rnd, s.sp = 0 → Exec.execute .Ret rnd s = .error .stackUnderflow)
    ∧ (∀ ins rnd s t b, (∀ a, ins ≠ .Call a) → ins ≠ .Ret →
        Exec.execute ins rnd s = .ok (t, b) → t.sp = s.sp) := by
  refine ⟨fun s h => (reachable_wf s h).2, ?_, ?_, ?_⟩
  · intro s nnn rnd hsp hlen
    have hpush : Emulator.stack_push s s.pc = .error .stackOverflow := by
      unfold Emulator.stack_push
      rw [if_pos (by omega)]
    simp only [Exec.execute]
    rw [hpush]
  · intro s rnd hsp
    have hpop : Emulator.stack_pop s = .error .stackUnderflow := by
      unfold Emulator.stack_pop
      rw [if_pos hsp]
    simp only [Exec.execute]
    rw [hpop]
  · intro ins rnd s t b hnc hnr h
    rcases execute_sp_shape ins rnd s t b h with ⟨⟨a, ha⟩, -⟩ | ⟨ha, -⟩ | ⟨h1, -⟩
    · exact absurd ha (hnc a)
    · exact absurd ha hnr
    · exact h1

/-- Witness for C9: reset satisfies the bound; `CALL 0x206` overflows at
`SP = 16`; `RET` underflows at reset; `NOP` leaves `SP` unchanged. -/
theorem c9_stack_pointer_invariant_witness :
    chip8_new.sp ≤ 16
    ∧ Exec.execute (.Call 0x206) 0 sp16_state = .error .stackOverflow
    ∧ Exec.execute .Ret 0 chip8_new = .error .stackUnderflow
    ∧ chip8_new.sp = chip8_new.sp :=
  ⟨c9_stack_pointer_invariant.1 chip8_new Cpu.Reachable.reset,
   c9_stack_pointer_invariant.2.1 sp16_state 0x206 0 rfl
     (by show (List.replicate STACK_SIZE 0).length = 16; rw [List.length_replicate]; rfl),
   c9_stack_pointer_invariant.2.2.1 chip8_new 0 rfl,
   c9_stack_pointer_invariant.2.2.2 .Nop 0 chip8_new chip8_new true
     (fun a hh => Instruction.noConfusion hh) (fun hh => Instruction.noConfusion hh) rfl⟩

end ClaimC9
